import Mathlib

/-!
# Audio capture stream for iOS: lifecycle, render callback and scratch buffer

Shallow embedding of `Source/RuntimeAudioImporter/Private/Sound/IOS/AudioCaptureIOS.cpp`.

* The object `Audio::FAudioCaptureIOS` becomes the record `FAudioCaptureIOS`; every member
  function becomes a pure function from the record (and the outcomes of the platform calls
  it makes) to the new record, the returned value and the list of platform calls issued.
* Machine integers are `Int` or `Nat` with explicit reduction: `toUInt32`, `toInt32`,
  `toSizeT` (64 bit `size_t`, the only iOS ABI).
* `CaptureBuffer` (a `TArray<uint8>`) is kept as its length in bytes together with the typed
  view the code imposes on it through the cast to `AudioBufferList*`. Its size type is
  `int32` : a resize to a negative narrowed size, a write outside the array and a read
  through a null pointer have no defined result, which is `none`.
-/

namespace AudioCaptureIOS

/-! ## Machine integers -/

/-- Status code of a platform call (`OSStatus`, a signed 32 bit integer). -/
abbrev OSStatus := Int

/-- The success status `noErr`. -/
def noErr : OSStatus := 0

/-- Conversion to `UInt32`: reduction modulo `2^32`. -/
def toUInt32 (x : Int) : Int := x % 4294967296

/-- Narrowing conversion to `int32`: two complement wrap around. -/
def toInt32 (x : Int) : Int :=
  if x % 4294967296 < 2147483648 then x % 4294967296 else x % 4294967296 - 4294967296

/-- Conversion to the unsigned 64 bit `size_t`: reduction modulo `2^64`. -/
def toSizeT (x : Int) : Int := x % 18446744073709551616

/-- Value of `sizeof(AudioBufferList)` on the 64 bit ABI: a `UInt32` count, four bytes of
padding and one inline `AudioBuffer`. -/
def sizeofAudioBufferList : Int := 24

/-- Value of `sizeof(AudioBuffer)` on the 64 bit ABI: two `UInt32` fields and one pointer. -/
def sizeofAudioBuffer : Int := 16

/-- Value of `sizeof(float)`. -/
def sizeofFloat : Int := 4

/-- Bus number `kInputBus`. -/
def kInputBus : Int := 1

/-- Bus number `kOutputBus`. -/
def kOutputBus : Int := 0

/-! ## Data model -/

/-- One channel descriptor (`AudioBuffer`). `mData` is kept as the byte offset of the pointed
region from `CaptureBuffer.GetData()`. -/
structure AudioBuffer where
  mNumberChannels : Int
  mDataByteSize : Int
  mData : Int
deriving DecidableEq, Repr

/-- The scratch array `CaptureBuffer` : its length `Num` in bytes and the `AudioBufferList`
view of its first bytes (`mNumberBuffers`, then the descriptors `mBuffers`). `GetData()` is
the null pointer exactly when `Num = 0`. -/
structure TArray where
  Num : Int
  mNumberBuffers : Int
  mBuffers : List AudioBuffer
deriving DecidableEq, Repr

/-- Result of `CaptureBuffer.Empty()` : no storage, no descriptors. -/
def TArray.Empty : TArray := ⟨0, 0, []⟩

/-- The member variables of `Audio::FAudioCaptureIOS`. A hardware handle is a number, the
null handle is `none`; the registered consumer callback is identified by a number. -/
structure FAudioCaptureIOS where
  IOUnit : Option Nat
  NumChannels : Int
  SampleRate : Int
  CaptureBuffer : TArray
  BufferSize : Int
  OnCapture : Option Nat
  bIsStreamOpen : Bool
  bHasCaptureStarted : Bool
deriving DecidableEq, Repr

/-- Properties set through `AudioUnitSetProperty`. -/
inductive UnitProperty where
  | enableInput
  | disableOutput
  | streamFormat
  | setInputCallback
  | bypassVoiceProcessing
  | voiceProcessingEnableAGC
deriving DecidableEq, Repr

/-- Calls that leave the object: platform audio calls, array resizing and the consumer
callback. Each member function reports the calls it issued, in order. -/
inductive HwCall where
  | recordPermission
  | requestRecordPermission
  | setCategory
  | setActive
  | AudioComponentInstanceNew (written : Option Nat)
  | AudioUnitSetProperty (unit : Option Nat) (property : UnitProperty) (value : Int)
  | AudioUnitInitialize (unit : Option Nat)
  | sleepForTimeInterval
  | AudioUnitReset (unit : Option Nat)
  | AudioOutputUnitStart (unit : Option Nat)
  | AudioOutputUnitStop (unit : Option Nat)
  | AudioComponentInstanceDispose (unit : Option Nat)
  | SetNumUninitialized (bytes : Int)
  | AudioUnitRender (unit : Option Nat) (inNumberFrames : Int) (list : TArray)
  | OnCapture (consumer : Option Nat) (InBuffer : Int) (InBufferFrames : Int)
      (NumChannels : Int) (SampleRate : Int)
deriving DecidableEq, Repr

/-- Outcome of a member function: the object afterwards, the returned value, the calls made. -/
structure Ret (α : Type) where
  self : FAudioCaptureIOS
  value : α
  calls : List HwCall
deriving DecidableEq, Repr

/-- Modelled from the spec: the constructor of `FAudioCaptureIOS` lives in the header that is
not part of the sources; section 3 says the stream is constructed empty (closed, not
capturing, no handle), with an empty scratch buffer of size zero. -/
def constructed (NumChannels SampleRate : Int) : FAudioCaptureIOS :=
  { IOUnit := none, NumChannels := NumChannels, SampleRate := SampleRate,
    CaptureBuffer := TArray.Empty, BufferSize := 0, OnCapture := none,
    bIsStreamOpen := false, bHasCaptureStarted := false }

/-! ## Accessors -/

/-- Member `IsStreamOpen` (line 363). -/
def IsStreamOpen (c : FAudioCaptureIOS) : Bool := c.bIsStreamOpen

/-- Member `IsCapturing` (line 368). -/
def IsCapturing (c : FAudioCaptureIOS) : Bool := c.bHasCaptureStarted

/-! ## Hardware feature toggle (lines 389-426) -/

/-- The two features of `Audio::EHardwareInputFeature` handled by the switch. -/
inductive EHardwareInputFeature where
  | EchoCancellation
  | AutomaticGainControl
deriving DecidableEq, Repr

/-- Member `SetHardwareFeatureEnabled`: nothing without a handle; otherwise one property
write whose status is ignored. The object is not modified, so only the calls are returned. -/
def SetHardwareFeatureEnabled (c : FAudioCaptureIOS) (FeatureType : EHardwareInputFeature)
    (bEnabled : Bool) : List HwCall :=
  if c.IOUnit = none then []
  else
    match FeatureType with
    | .EchoCancellation =>
        [.AudioUnitSetProperty c.IOUnit .bypassVoiceProcessing (if bEnabled then 0 else 1)]
    | .AutomaticGainControl =>
        [.AudioUnitSetProperty c.IOUnit .voiceProcessingEnableAGC (if bEnabled then 1 else 0)]

/-! ## Opening the stream (lines 36-299) -/

/-- Everything `OpenAudioCaptureStream` reads from outside the object. A platform call of the
background block that does not return before the five second wait of the caller expires is
`none`; otherwise it carries the returned status. -/
structure OpenEnv where
  /-- Compile time switch `UE_VERSION_NEWER_THAN(4, 25, 0)` around the feature toggles. -/
  ueNewerThan425 : Bool
  /-- Value of `CheckPermissionGranted()`. -/
  permissionGranted : Bool
  /-- Value delivered by `PermissionFuture.Get()`. -/
  requestGranted : Bool
  /-- After `setCategory`, `setCategoryError != nil`. -/
  setCategoryError : Bool
  /-- After `setActive`, `setCategoryError != nil`. -/
  setActiveError : Bool
  /-- Status of `AudioComponentInstanceNew` and the value it leaves in `IOUnit`. -/
  instanceNew : Option (OSStatus × Option Nat)
  enableInputStatus : Option OSStatus
  disableOutputStatus : Option OSStatus
  streamFormatStatus : Option OSStatus
  setCallbackStatus : Option OSStatus
  firstInitStatus : Option OSStatus
  retryInitStatus : Option OSStatus
  /-- Whether the two feature toggles return before the wait expires. -/
  featuresReturn : Bool
deriving DecidableEq, Repr

/-- State of the background block when the caller stops waiting. -/
structure BlockOutcome where
  self : FAudioCaptureIOS
  calls : List HwCall
  /-- Whether `dispatch_semaphore_signal` was reached. -/
  signalled : Bool
  bInitSucceeded : Bool
deriving Repr

/-- Tail of the block, lines 263-284: feature toggles, `bIsStreamOpen`, signal. -/
def blockFinish (c : FAudioCaptureIOS) (calls : List HwCall) (bUseHardwareAEC : Bool)
    (e : OpenEnv) (Status_Internal : OSStatus) : BlockOutcome :=
  if e.ueNewerThan425 = true ∧ e.featuresReturn = false then ⟨c, calls, false, false⟩
  else
    let toggles :=
      if e.ueNewerThan425 then
        SetHardwareFeatureEnabled c .EchoCancellation bUseHardwareAEC
          ++ SetHardwareFeatureEnabled c .AutomaticGainControl bUseHardwareAEC
      else []
    let bInitSucceeded := decide (Status_Internal = noErr)
    ⟨{ c with bIsStreamOpen := bInitSucceeded }, calls ++ toggles, true, bInitSucceeded⟩

/-- Lines 233-261: `AudioUnitInitialize` with one retry after status `-66635`. -/
def blockInitialize (c : FAudioCaptureIOS) (calls : List HwCall) (bUseHardwareAEC : Bool)
    (e : OpenEnv) : BlockOutcome :=
  match e.firstInitStatus with
  | none => ⟨c, calls, false, false⟩
  | some st =>
    let calls1 := calls ++ [.AudioUnitInitialize c.IOUnit]
    if st = -66635 then
      match e.retryInitStatus with
      | none => ⟨c, calls1 ++ [.sleepForTimeInterval], false, false⟩
      | some st2 =>
        let calls2 := calls1 ++ [.sleepForTimeInterval, .AudioUnitInitialize c.IOUnit]
        if st2 ≠ noErr then ⟨c, calls2, true, false⟩
        else blockFinish c calls2 bUseHardwareAEC e st2
    else if st ≠ noErr then ⟨c, calls1, true, false⟩
    else blockFinish c calls1 bUseHardwareAEC e st

/-- One `AudioUnitSetProperty` step of the block followed by its failure exit: `none` means
the call did not return in time, a non zero status signals failure, `noErr` continues. -/
def blockStep (c : FAudioCaptureIOS) (calls : List HwCall) (status : Option OSStatus)
    (call : HwCall) (next : List HwCall → BlockOutcome) : BlockOutcome :=
  match status with
  | none => ⟨c, calls, false, false⟩
  | some st =>
    if st ≠ noErr then ⟨c, calls ++ [call], true, false⟩
    else next (calls ++ [call])

/-- The block dispatched to the global queue, lines 129-286. -/
def configurationBlock (c : FAudioCaptureIOS) (bUseHardwareAEC : Bool) (e : OpenEnv) :
    BlockOutcome :=
  match e.instanceNew with
  | none => ⟨c, [], false, false⟩
  | some (st, written) =>
    let c1 := { c with IOUnit := written }
    let calls1 := [HwCall.AudioComponentInstanceNew written]
    if st ≠ noErr then ⟨c1, calls1, true, false⟩
    else
      blockStep c1 calls1 e.enableInputStatus
        (.AudioUnitSetProperty c1.IOUnit .enableInput 1) fun calls2 =>
      blockStep c1 calls2 e.disableOutputStatus
        (.AudioUnitSetProperty c1.IOUnit .disableOutput 0) fun calls3 =>
      blockStep c1 calls3 e.streamFormatStatus
        (.AudioUnitSetProperty c1.IOUnit .streamFormat (sizeofFloat * c1.NumChannels)) fun calls4 =>
      blockStep c1 calls4 e.setCallbackStatus
        (.AudioUnitSetProperty c1.IOUnit .setInputCallback 0) fun calls5 =>
      blockInitialize c1 calls5 bUseHardwareAEC e

/-- Member `OpenAudioCaptureStream` (`OpenCaptureStream` before UE 5.3). `InOnCapture`
identifies the consumer callback; `NumFramesDesired` is not read by the code. -/
def OpenAudioCaptureStream (c : FAudioCaptureIOS) (bUseHardwareAEC : Bool) (InOnCapture : Nat)
    (_NumFramesDesired : Nat) (e : OpenEnv) : Ret Bool :=
  if c.bIsStreamOpen then ⟨c, true, []⟩
  else if e.permissionGranted = false ∧ e.requestGranted = false then
    ⟨c, false, [.recordPermission, .requestRecordPermission]⟩
  else
    let calls0 : List HwCall :=
      if e.permissionGranted then [.recordPermission]
      else [.recordPermission, .requestRecordPermission]
    let c0 := { c with OnCapture := some InOnCapture }
    if e.setCategoryError then ⟨c0, false, calls0 ++ [.setCategory]⟩
    else if e.setActiveError then ⟨c0, false, calls0 ++ [.setCategory, .setActive]⟩
    else
      let b := configurationBlock c0 bUseHardwareAEC e
      let calls := calls0 ++ [.setCategory, .setActive] ++ b.calls
      if b.signalled = false then ⟨{ b.self with bIsStreamOpen := false }, false, calls⟩
      else ⟨b.self, b.bInitSucceeded, calls⟩

/-! ## Start, stop, close, abort (lines 301-355) -/

/-- Statuses of the two platform calls of `StartStream`. -/
structure StartEnv where
  resetStatus : OSStatus
  startStatus : OSStatus
deriving DecidableEq, Repr

/-- Member `StartStream`. -/
def StartStream (c : FAudioCaptureIOS) (e : StartEnv) : Ret Bool :=
  if !IsStreamOpen c || IsCapturing c || c.IOUnit.isNone then ⟨c, false, []⟩
  else if e.resetStatus ≠ noErr then ⟨c, false, [.AudioUnitReset c.IOUnit]⟩
  else
    let started := decide (e.startStatus = noErr)
    ⟨{ c with bHasCaptureStarted := started }, started,
      [.AudioUnitReset c.IOUnit, .AudioOutputUnitStart c.IOUnit]⟩

/-- Member `StopStream`; `stopStatus` is the status of `AudioOutputUnitStop`. -/
def StopStream (c : FAudioCaptureIOS) (stopStatus : OSStatus) : Ret Bool :=
  if !IsStreamOpen c || !IsCapturing c then ⟨c, false, []⟩
  else
    let bStopped := decide (stopStatus = noErr)
    ⟨{ c with bHasCaptureStarted := !bStopped }, bStopped, [.AudioOutputUnitStop c.IOUnit]⟩

/-- Member `CloseStream`; `stopStatus` is the status of the hardware stop inside. -/
def CloseStream (c : FAudioCaptureIOS) (stopStatus : OSStatus) : Ret Bool :=
  let r := StopStream c stopStatus
  let c1 := r.self
  let disposeCalls : List HwCall :=
    if c1.IOUnit.isSome then [.AudioComponentInstanceDispose c1.IOUnit] else []
  ⟨{ c1 with IOUnit := none, CaptureBuffer := TArray.Empty, BufferSize := 0,
             bIsStreamOpen := false },
    true, r.calls ++ disposeCalls⟩

/-- Member `AbortStream`: `StopStream`, then `CloseStream`, each with the status of its own
hardware stop. -/
def AbortStream (c : FAudioCaptureIOS) (stopStatus closeStopStatus : OSStatus) : Ret Bool :=
  let r1 := StopStream c stopStatus
  let r2 := CloseStream r1.self closeStopStatus
  ⟨r2.self, true, r1.calls ++ r2.calls⟩

/-! ## Buffer allocator (lines 470-500) -/

/-- Descriptor written for loop index `Index` : one channel, the requested byte size, and the
running pointer `CaptureBufferData`, which starts at
`sizeof(AudioBufferList) + sizeof(AudioBuffer)` and advances by
`SizeInBytes + sizeof(AudioBuffer)` (in `size_t` arithmetic) per iteration. -/
def allocatedDescriptor (SizeInBytes : Int) (Index : Nat) : AudioBuffer :=
  { mNumberChannels := 1,
    mDataByteSize := toUInt32 SizeInBytes,
    mData := toSizeT (sizeofAudioBufferList + sizeofAudioBuffer
      + (Index : Int) * toSizeT (toSizeT SizeInBytes + sizeofAudioBuffer)) }

/-- Byte offset of `list->mBuffers[Index]` in the block: the descriptors are the trailing
array of the list header, so the first one ends where the header ends. -/
def descriptorOffset (Index : Nat) : Int :=
  sizeofAudioBufferList - sizeofAudioBuffer + (Index : Int) * sizeofAudioBuffer

/-- The local `CaptureBufferBytes` of line 472, computed in unsigned `size_t` arithmetic. -/
def CaptureBufferBytes (c : FAudioCaptureIOS) (SizeInBytes : Int) : Int :=
  toSizeT (sizeofAudioBufferList
    + toSizeT c.NumChannels * toSizeT (sizeofAudioBuffer + toSizeT SizeInBytes))

/-- End of the bytes written through `list` by lines 491-499: the `UInt32` count at offset 0
and, when the loop runs, the descriptors of the indices below `NumChannels`. -/
def writtenExtent (NumChannels : Int) : Int :=
  if 1 ≤ NumChannels then descriptorOffset NumChannels.toNat else 4

/-- Member `AllocateBuffer`. The total is a `size_t`, so the guard `CaptureBufferBytes <= 0`
compares an unsigned value. `TArray<uint8>::SetNumUninitialized` takes the `int32` size type
of the array, so the total is narrowed on the call of line 480. The result is `none`, no
defined outcome, when the narrowed size is negative, and when the array is too short for the
count and descriptors that lines 491-499 write into it. A narrowed size of zero leaves an
empty array, whose `GetData()` is null, and the function returns at line 483. The data
regions the descriptors point at are not checked against the array. -/
def AllocateBuffer (c : FAudioCaptureIOS) (SizeInBytes : Int) : Option (Ret Unit) :=
  if CaptureBufferBytes c SizeInBytes ≤ 0 then some ⟨c, (), []⟩
  else
    let NewNum := toInt32 (CaptureBufferBytes c SizeInBytes)
    if NewNum < 0 then none
    else if NewNum = 0 then
      some ⟨{ c with CaptureBuffer := TArray.Empty }, (), [.SetNumUninitialized NewNum]⟩
    else if NewNum < writtenExtent c.NumChannels then none
    else
      let list : TArray :=
        { Num := NewNum,
          mNumberBuffers := toUInt32 c.NumChannels,
          mBuffers := (List.range c.NumChannels.toNat).map (allocatedDescriptor SizeInBytes) }
      some ⟨{ c with CaptureBuffer := list }, (), [.SetNumUninitialized NewNum]⟩

/-! ## Render callback (lines 429-468) -/

/-- Outcome of `AudioUnitRender` : its status and the byte counts the hardware writes back
into the leading descriptors of the list it was handed. -/
structure RenderEnv where
  renderStatus : OSStatus
  writtenByteSizes : List Int
deriving DecidableEq, Repr

/-- The loop of lines 446-449: the first `n` descriptors get byte size `size`. -/
def setByteSizes : Nat → Int → List AudioBuffer → List AudioBuffer
  | 0, _, bufs => bufs
  | _ + 1, _, [] => []
  | n + 1, size, b :: bs => { b with mDataByteSize := size } :: setByteSizes n size bs

/-- Byte counts left in the descriptors by the hardware during a render. -/
def hardwareWrite : List Int → List AudioBuffer → List AudioBuffer
  | w :: ws, b :: bs => { b with mDataByteSize := w } :: hardwareWrite ws bs
  | [], bs => bs
  | _ :: _, [] => []

/-- Value of `NeededBufferSize` : the 32 bit product `inNumberFrames * NumChannels` widened
to `size_t`, multiplied by `sizeof(float)` and narrowed to `int32`. -/
def NeededBufferSize (c : FAudioCaptureIOS) (inNumberFrames : Nat) : Int :=
  toInt32 (toSizeT (toUInt32 ((inNumberFrames : Int) * c.NumChannels) * sizeofFloat))

/-- Lines 438-443: the scratch buffer is resized when it is empty or too small. -/
def ensureBuffer (c : FAudioCaptureIOS) (inNumberFrames : Nat) : Option (Ret Unit) :=
  if c.CaptureBuffer.Num = 0 ∨ c.BufferSize < NeededBufferSize c inNumberFrames then
    AllocateBuffer { c with BufferSize := NeededBufferSize c inNumberFrames }
      (NeededBufferSize c inNumberFrames)
  else some ⟨c, (), []⟩

/-- Lines 445-449: the descriptors as they are handed to `AudioUnitRender`. -/
def preparedList (c : FAudioCaptureIOS) : TArray :=
  { c.CaptureBuffer with
    mBuffers := setByteSizes c.CaptureBuffer.mNumberBuffers.toNat (toUInt32 c.BufferSize)
      c.CaptureBuffer.mBuffers }

/-- The object once `AudioUnitRender` has returned: the descriptors prepared by the loop,
with the byte counts the hardware wrote back. -/
def afterRender (c : FAudioCaptureIOS) (e : RenderEnv) : FAudioCaptureIOS :=
  { c with
    CaptureBuffer :=
      { preparedList c with
        mBuffers := hardwareWrite e.writtenByteSizes (preparedList c).mBuffers } }

/-- Lines 451-467, once the scratch buffer `r` is in place. The result is `none` where the
code dereferences the null `BufferList` of an empty array or reads the first descriptor of a
list without one. -/
def renderAndForward (r : Ret Unit) (inNumberFrames : Nat) (e : RenderEnv) :
    Option (Ret OSStatus) :=
  if r.self.CaptureBuffer.Num = 0 then none
  else
    let BufferList := preparedList r.self
    let renderCall := HwCall.AudioUnitRender r.self.IOUnit inNumberFrames BufferList
    let c3 := afterRender r.self e
    if e.renderStatus ≠ noErr then some ⟨c3, 0, r.calls ++ [renderCall]⟩
    else
      match c3.CaptureBuffer.mBuffers with
      | [] => none
      | b :: _ =>
        some ⟨c3, noErr, r.calls ++ [renderCall,
          .OnCapture c3.OnCapture b.mData inNumberFrames c3.NumChannels c3.SampleRate]⟩

/-- Member `OnCaptureCallback`. The result is `none` where `AllocateBuffer` or the rest of
the callback has no defined outcome. -/
def OnCaptureCallback (c : FAudioCaptureIOS) (inNumberFrames : Nat) (e : RenderEnv) :
    Option (Ret OSStatus) :=
  if c.IOUnit.isNone || !c.bIsStreamOpen then some ⟨c, -1, []⟩
  else
    match ensureBuffer c inNumberFrames with
    | none => none
    | some r => renderAndForward r inNumberFrames e

/-! ## Sequences of operations -/

/-- One call on the stream together with the outcomes of the platform calls it makes. -/
inductive Op where
  | Open (bUseHardwareAEC : Bool) (InOnCapture : Nat) (NumFramesDesired : Nat) (e : OpenEnv)
  | Start (e : StartEnv)
  | Stop (stopStatus : OSStatus)
  | Close (stopStatus : OSStatus)
  | Abort (stopStatus closeStopStatus : OSStatus)
  | Render (inNumberFrames : Nat) (e : RenderEnv)
deriving Repr

/-- The object after one operation; `none` when the render callback has no defined result. -/
def step (c : FAudioCaptureIOS) : Op → Option FAudioCaptureIOS
  | .Open a f n e => some (OpenAudioCaptureStream c a f n e).self
  | .Start e => some (StartStream c e).self
  | .Stop st => some (StopStream c st).self
  | .Close st => some (CloseStream c st).self
  | .Abort st st2 => some (AbortStream c st st2).self
  | .Render n e => (OnCaptureCallback c n e).map Ret.self

/-- The objects observed after each operation of a sequence, in order. The run ends early
where an operation has no defined result. -/
def observations (c : FAudioCaptureIOS) : List Op → List FAudioCaptureIOS
  | [] => []
  | op :: ops =>
    match step c op with
    | none => []
    | some c1 => c1 :: observations c1 ops

/-! ## Concrete inputs used below -/

/-- An environment in which every step of opening succeeds and the hardware hands out the
unit `unit`. -/
def envSucceeds (unit : Nat) : OpenEnv :=
  { ueNewerThan425 := true, permissionGranted := true, requestGranted := true,
    setCategoryError := false, setActiveError := false,
    instanceNew := some (noErr, some unit),
    enableInputStatus := some noErr, disableOutputStatus := some noErr,
    streamFormatStatus := some noErr, setCallbackStatus := some noErr,
    firstInitStatus := some noErr, retryInitStatus := some noErr, featuresReturn := true }

/-- An environment in which the unit `unit` is instantiated and enabling the input bus then
fails with status `-50`. -/
def envEnableInputFails (unit : Nat) : OpenEnv :=
  { envSucceeds unit with enableInputStatus := some (-50) }

/-- A mono stream that is open on unit `7` and capturing. -/
def capturingStream : FAudioCaptureIOS :=
  { constructed 1 48000 with
    IOUnit := some 7, OnCapture := some 1, bIsStreamOpen := true, bHasCaptureStarted := true }

/-- A stream with `NumChannels` channels that is open on unit `7`, with no scratch buffer. -/
def openStream (NumChannels : Int) : FAudioCaptureIOS :=
  { constructed NumChannels 48000 with
    IOUnit := some 7, OnCapture := some 1, bIsStreamOpen := true }

/-- Open, start, then close while the hardware refuses to stop (status `-50`). -/
def closeWithFailedStop : List Op :=
  [.Open true 1 512 (envSucceeds 7), .Start ⟨noErr, noErr⟩, .Close (-50)]

/-! ## Vocabulary of the buffer claims -/

/-- Consistency of the scratch buffer between callbacks: an empty array goes with
`BufferSize = 0`, and a non empty array carries the list laid out by `AllocateBuffer`, one
descriptor per channel, counted by `mNumberBuffers`. -/
def BufferOk (c : FAudioCaptureIOS) : Prop :=
  (c.CaptureBuffer.Num = 0 → c.BufferSize = 0) ∧
    (c.CaptureBuffer.Num ≠ 0 →
      c.CaptureBuffer.mNumberBuffers = c.NumChannels ∧
      (c.CaptureBuffer.mBuffers.length : Int) = c.NumChannels)

/-- The total of line 472 as a plain integer: one list header plus, per channel, one
descriptor and `SizeInBytes` bytes. -/
def blockBytes (NumChannels SizeInBytes : Int) : Int :=
  sizeofAudioBufferList + NumChannels * (sizeofAudioBuffer + SizeInBytes)

/-- A held hardware handle goes with an open stream. -/
def HandleImpliesOpen (c : FAudioCaptureIOS) : Prop :=
  c.IOUnit ≠ none → c.bIsStreamOpen = true

/-- No call of the list disposes a hardware unit. -/
def NoDispose (calls : List HwCall) : Prop :=
  ∀ unit, HwCall.AudioComponentInstanceDispose unit ∉ calls

/-- The property of claim C6 along a sequence of render callbacks, each given by its frame
count and hardware outcome: every callback returns; `BufferSize` does not decrease and
covers the bytes needed by the callback; and a callback whose need is covered by the
`BufferSize` of a non empty array resizes nothing (same `Num`, same `BufferSize`, no
`SetNumUninitialized` call). -/
def sizesGrow (c : FAudioCaptureIOS) : List (Nat × RenderEnv) → Prop
  | [] => True
  | (n, e) :: rest =>
    ∃ r, OnCaptureCallback c n e = some r ∧
      c.BufferSize ≤ r.self.BufferSize ∧
      (n : Int) * c.NumChannels * 4 ≤ r.self.BufferSize ∧
      (c.CaptureBuffer.Num ≠ 0 → (n : Int) * c.NumChannels * 4 ≤ c.BufferSize →
        r.self.CaptureBuffer.Num = c.CaptureBuffer.Num ∧ r.self.BufferSize = c.BufferSize ∧
        ∀ bytes, HwCall.SetNumUninitialized bytes ∉ r.calls) ∧
      sizesGrow r.self rest

/-- The byte ranges `[a, a + alen)` and `[b, b + blen)` have a byte in common. -/
def overlap (a alen b blen : Int) : Prop :=
  0 < alen ∧ 0 < blen ∧ a < b + blen ∧ b < a + alen

instance (a alen b blen : Int) : Decidable (overlap a alen b blen) := by
  unfold overlap
  infer_instance

/-- Three render callbacks of 128, 256 and 512 frames, the hardware succeeding each time. -/
def growingCallbacks : List (Nat × RenderEnv) :=
  [(128, ⟨noErr, [512]⟩), (256, ⟨noErr, [1024]⟩), (512, ⟨noErr, [2048]⟩)]

/-- One render callback of `2^29 - 1` frames: on a mono stream it needs `2^31 - 4` bytes. -/
def hugeCallback : List (Nat × RenderEnv) := [(536870911, ⟨noErr, []⟩)]

/-- The mono stream after one successful render callback of 512 frames. -/
def afterBigCallback : FAudioCaptureIOS :=
  { openStream 1 with
    CaptureBuffer := ⟨2088, 1, [⟨1, 2048, 40⟩]⟩, BufferSize := 2048 }

/-- The lifecycle invariant of claim C1: a capturing stream is open. -/
def CapturingImpliesOpen (c : FAudioCaptureIOS) : Prop :=
  c.bHasCaptureStarted = true → c.bIsStreamOpen = true

/-- The operation is a close or an abort of an open, capturing stream during which every
hardware stop fails. -/
def closesWithFailedStop (c : FAudioCaptureIOS) : Op → Prop
  | .Close st => c.bIsStreamOpen = true ∧ c.bHasCaptureStarted = true ∧ st ≠ noErr
  | .Abort st st2 =>
      c.bIsStreamOpen = true ∧ c.bHasCaptureStarted = true ∧ st ≠ noErr ∧ st2 ≠ noErr
  | _ => False

/-! ## Lemmas on opening -/

/-- What the background block may do to a closed object `c` : set `IOUnit`, and set
`bIsStreamOpen` to the reported success; without a signal no success is reported. -/
def BlockSpec (c : FAudioCaptureIOS) (b : BlockOutcome) : Prop :=
  b.self = { c with bIsStreamOpen := b.bInitSucceeded } ∧
    (b.signalled = false → b.bInitSucceeded = false)

theorem blockFinish_spec (c : FAudioCaptureIOS) (calls : List HwCall) (a : Bool) (e : OpenEnv)
    (st : OSStatus) (hc : c.bIsStreamOpen = false) : BlockSpec c (blockFinish c calls a e st) := by
  unfold blockFinish BlockSpec
  split_ifs <;> simp_all
  cases c; simp_all

theorem exit_spec (c : FAudioCaptureIOS) (calls : List HwCall) (sig : Bool)
    (hc : c.bIsStreamOpen = false) : BlockSpec c ⟨c, calls, sig, false⟩ := by
  unfold BlockSpec
  cases c; simp_all

theorem blockInitialize_spec (c : FAudioCaptureIOS) (calls : List HwCall) (a : Bool)
    (e : OpenEnv) (hc : c.bIsStreamOpen = false) :
    BlockSpec c (blockInitialize c calls a e) := by
  unfold blockInitialize
  split
  · exact exit_spec c _ _ hc
  · split_ifs
    · split
      · exact exit_spec c _ _ hc
      · split_ifs
        · exact exit_spec c _ _ hc
        · exact blockFinish_spec c _ a e _ hc
    · exact exit_spec c _ _ hc
    · exact blockFinish_spec c _ a e _ hc

theorem blockStep_spec (c : FAudioCaptureIOS) (calls : List HwCall) (status : Option OSStatus)
    (call : HwCall) (next : List HwCall → BlockOutcome) (hc : c.bIsStreamOpen = false)
    (hnext : ∀ l, BlockSpec c (next l)) : BlockSpec c (blockStep c calls status call next) := by
  unfold blockStep
  split
  · exact exit_spec c _ _ hc
  · split_ifs
    · exact exit_spec c _ _ hc
    · exact hnext _

/-- The block on a closed object: with no answer from the instantiation nothing changes;
otherwise `IOUnit` holds what the instantiation wrote and `bIsStreamOpen` the success. -/
theorem configurationBlock_spec (c : FAudioCaptureIOS) (a : Bool) (e : OpenEnv)
    (hc : c.bIsStreamOpen = false) :
    BlockSpec { c with IOUnit := (e.instanceNew.map Prod.snd).getD c.IOUnit }
      (configurationBlock c a e) := by
  unfold configurationBlock
  split
  · rename_i h
    rw [h]
    exact exit_spec _ _ _ hc
  · rename_i st written h
    rw [h]
    simp only [Option.map_some', Option.getD_some]
    split_ifs
    · exact exit_spec _ _ _ hc
    · refine blockStep_spec _ _ _ _ _ hc fun _ => ?_
      refine blockStep_spec _ _ _ _ _ hc fun _ => ?_
      refine blockStep_spec _ _ _ _ _ hc fun _ => ?_
      refine blockStep_spec _ _ _ _ _ hc fun _ => ?_
      exact blockInitialize_spec _ _ a e hc

/-- Opening never leaves the open flag different from the returned value. -/
theorem open_flag_eq_value (c : FAudioCaptureIOS) (a : Bool) (f n : Nat) (e : OpenEnv) :
    (OpenAudioCaptureStream c a f n e).self.bIsStreamOpen
      = (OpenAudioCaptureStream c a f n e).value := by
  unfold OpenAudioCaptureStream
  by_cases hc : c.bIsStreamOpen = true
  · simp [hc]
  · have hc0 : c.bIsStreamOpen = false := by simpa using hc
    have hb := configurationBlock_spec { c with OnCapture := some f } a e hc0
    obtain ⟨h1, h2⟩ := hb
    simp only [hc0]
    split_ifs <;> simp_all

/-- Opening does not touch the capturing flag, the channel count or the scratch buffer. -/
theorem open_frame (c : FAudioCaptureIOS) (a : Bool) (f n : Nat) (e : OpenEnv) :
    (OpenAudioCaptureStream c a f n e).self.bHasCaptureStarted = c.bHasCaptureStarted ∧
    (OpenAudioCaptureStream c a f n e).self.NumChannels = c.NumChannels ∧
    (OpenAudioCaptureStream c a f n e).self.CaptureBuffer = c.CaptureBuffer ∧
    (OpenAudioCaptureStream c a f n e).self.BufferSize = c.BufferSize := by
  unfold OpenAudioCaptureStream
  by_cases hc : c.bIsStreamOpen = true
  · simp [hc]
  · have hc0 : c.bIsStreamOpen = false := by simpa using hc
    have hb := configurationBlock_spec { c with OnCapture := some f } a e hc0
    obtain ⟨h1, h2⟩ := hb
    simp only [hc0]
    split_ifs <;> simp_all

/-! ## Lifecycle: capturing and open flags -/

/-- Claim C1, evaluated on the code: from the constructed stream, a successful open and start
followed by a close during which `AudioOutputUnitStop` fails is observed, after the close, as
capturing but not open, with the unit disposed and no handle left. The two earlier
observations satisfy the invariant. An abort whose two stops fail ends the same way. The
stale flag then makes `StartStream` refuse, without any hardware call, a stream that was
opened again on a fresh unit. -/
theorem C1_close_after_failed_stop_breaks_invariant :
    observations (constructed 1 48000) closeWithFailedStop
      = [ { constructed 1 48000 with
            IOUnit := some 7, OnCapture := some 1, bIsStreamOpen := true },
          { constructed 1 48000 with
            IOUnit := some 7, OnCapture := some 1, bIsStreamOpen := true,
            bHasCaptureStarted := true },
          { constructed 1 48000 with
            IOUnit := none, OnCapture := some 1, bIsStreamOpen := false,
            bHasCaptureStarted := true } ] ∧
    (CloseStream capturingStream (-50)).calls
      = [.AudioOutputUnitStop (some 7), .AudioComponentInstanceDispose (some 7)] ∧
    IsCapturing (CloseStream capturingStream (-50)).self = true ∧
    IsStreamOpen (CloseStream capturingStream (-50)).self = false ∧
    IsCapturing (AbortStream capturingStream (-50) (-50)).self = true ∧
    IsStreamOpen (AbortStream capturingStream (-50) (-50)).self = false ∧
    StartStream
        (OpenAudioCaptureStream (CloseStream capturingStream (-50)).self true 1 512
          (envSucceeds 8)).self ⟨noErr, noErr⟩
      = ⟨{ capturingStream with IOUnit := some 8 }, false, []⟩ := by
  refine ⟨by decide, by decide, by decide, by decide, by decide, by decide, by decide⟩

/-- Claim C3 as stated fails: on the open, capturing stream a hardware stop with status `-50`
makes `StopStream` return false, and `IsCapturing` is still true afterwards. -/
theorem C3_counterexample :
    IsStreamOpen capturingStream = true ∧ IsCapturing capturingStream = true ∧
    (-50 : OSStatus) ≠ noErr ∧
    ¬ ((StopStream capturingStream (-50)).value = false ∧
        IsCapturing (StopStream capturingStream (-50)).self = false) := by
  decide

/-- Claim C3, amended: on an open and capturing stream, when `AudioOutputUnitStop` returns a
non zero status, `StopStream` issues exactly that call, returns false and leaves every field
as it was, so the stream is still open and `IsCapturing` is still true. -/
theorem C3_failed_stop_keeps_capturing (c : FAudioCaptureIOS) (stopStatus : OSStatus)
    (hopen : IsStreamOpen c = true) (hcap : IsCapturing c = true)
    (hfail : stopStatus ≠ noErr) :
    (StopStream c stopStatus).value = false ∧
    (StopStream c stopStatus).self = c ∧
    IsCapturing (StopStream c stopStatus).self = true ∧
    IsStreamOpen (StopStream c stopStatus).self = true ∧
    (StopStream c stopStatus).calls = [.AudioOutputUnitStop c.IOUnit] := by
  unfold IsStreamOpen at hopen
  unfold IsCapturing at hcap
  cases c
  simp_all [StopStream, IsStreamOpen, IsCapturing]

/-- Instance of the amended claim C3 on the capturing mono stream with status `-50`. -/
theorem C3_failed_stop_keeps_capturing_witness :
    (StopStream capturingStream (-50)).value = false ∧
    (StopStream capturingStream (-50)).self = capturingStream ∧
    IsCapturing (StopStream capturingStream (-50)).self = true ∧
    IsStreamOpen (StopStream capturingStream (-50)).self = true ∧
    (StopStream capturingStream (-50)).calls
      = [.AudioOutputUnitStop capturingStream.IOUnit] :=
  C3_failed_stop_keeps_capturing capturingStream (-50) (by decide) (by decide) (by decide)

/-- Claim C4: `CloseStream` returns true in every state and for every hardware outcome; on a
stream that is already closed (not open, no handle, empty scratch buffer, size zero) it makes
no platform call and leaves every field unchanged; and closing twice gives the same object as
closing once, with no platform call made by the second close. -/
theorem C4_close_idempotent (c : FAudioCaptureIOS) (stopStatus stopStatus2 : OSStatus) :
    (CloseStream c stopStatus).value = true ∧
    (c.bIsStreamOpen = false → c.IOUnit = none → c.CaptureBuffer = TArray.Empty →
      c.BufferSize = 0 →
        (CloseStream c stopStatus).self = c ∧ (CloseStream c stopStatus).calls = []) ∧
    (CloseStream (CloseStream c stopStatus).self stopStatus2).value = true ∧
    (CloseStream (CloseStream c stopStatus).self stopStatus2).self
      = (CloseStream c stopStatus).self ∧
    (CloseStream (CloseStream c stopStatus).self stopStatus2).calls = [] := by
  refine ⟨rfl, ?_, rfl, ?_, ?_⟩
  · intro h1 h2 h3 h4
    cases c
    simp_all [CloseStream, StopStream, IsStreamOpen, IsCapturing]
  · simp [CloseStream, StopStream, IsStreamOpen, IsCapturing]
  · simp [CloseStream, StopStream, IsStreamOpen, IsCapturing]

/-- Instance of claim C4: closing the constructed stream changes nothing, and closing the
capturing stream twice equals closing it once. -/
theorem C4_close_idempotent_witness :
    ((CloseStream (constructed 1 48000) 0).self = constructed 1 48000 ∧
      (CloseStream (constructed 1 48000) 0).calls = []) ∧
    (CloseStream (CloseStream capturingStream (-50)).self 0).self
      = (CloseStream capturingStream (-50)).self :=
  ⟨(C4_close_idempotent (constructed 1 48000) 0 0).2.1 rfl rfl rfl rfl,
    (C4_close_idempotent capturingStream (-50) 0).2.2.2.1⟩

/-! ## Lifecycle: the hardware handle -/

/-- Claim C2 as stated fails: opening the constructed stream in an environment where the unit
`7` is instantiated and enabling the input then fails returns false and leaves the stream
closed, yet `IOUnit` still holds unit `7`, which no call has disposed. -/
theorem C2_counterexample :
    (OpenAudioCaptureStream (constructed 1 48000) true 1 512 (envEnableInputFails 7)).value
      = false ∧
    (OpenAudioCaptureStream (constructed 1 48000) true 1 512 (envEnableInputFails 7)).calls
      = [.recordPermission, .setCategory, .setActive, .AudioComponentInstanceNew (some 7),
         .AudioUnitSetProperty (some 7) .enableInput 1] ∧
    ¬ ((OpenAudioCaptureStream (constructed 1 48000) true 1 512
          (envEnableInputFails 7)).self.IOUnit ≠ none →
        (OpenAudioCaptureStream (constructed 1 48000) true 1 512
          (envEnableInputFails 7)).self.bIsStreamOpen = true) := by
  decide

theorem blockFinish_noDispose (c : FAudioCaptureIOS) (calls : List HwCall) (a : Bool)
    (e : OpenEnv) (st : OSStatus) (h : NoDispose calls) :
    NoDispose (blockFinish c calls a e st).calls := by
  intro u
  have hu := h u
  unfold blockFinish SetHardwareFeatureEnabled
  split_ifs <;> simp [hu]

theorem blockInitialize_noDispose (c : FAudioCaptureIOS) (calls : List HwCall) (a : Bool)
    (e : OpenEnv) (h : NoDispose calls) : NoDispose (blockInitialize c calls a e).calls := by
  have hext : ∀ l : List HwCall, NoDispose l →
      NoDispose (l ++ [.AudioUnitInitialize c.IOUnit]) ∧
      NoDispose (l ++ [.sleepForTimeInterval]) ∧
      NoDispose (l ++ [.sleepForTimeInterval, .AudioUnitInitialize c.IOUnit]) := by
    intro l hl
    refine ⟨fun u => ?_, fun u => ?_, fun u => ?_⟩ <;> simp [hl u]
  unfold blockInitialize
  split
  · exact h
  · split_ifs
    · split
      · exact (hext _ (hext _ h).1).2.1
      · split_ifs
        · exact (hext _ (hext _ h).1).2.2
        · exact blockFinish_noDispose _ _ _ _ _ (hext _ (hext _ h).1).2.2
    · exact (hext _ h).1
    · exact blockFinish_noDispose _ _ _ _ _ (hext _ h).1

theorem blockStep_noDispose (c : FAudioCaptureIOS) (calls : List HwCall)
    (status : Option OSStatus) (unit : Option Nat) (property : UnitProperty) (value : Int)
    (next : List HwCall → BlockOutcome) (h : NoDispose calls)
    (hnext : ∀ l, NoDispose l → NoDispose (next l).calls) :
    NoDispose
      (blockStep c calls status (.AudioUnitSetProperty unit property value) next).calls := by
  have hext : NoDispose (calls ++ [.AudioUnitSetProperty unit property value]) := by
    intro u
    simp [h u]
  unfold blockStep
  split
  · exact h
  · split_ifs
    · exact hext
    · exact hnext _ hext

/-- The background block disposes no unit, on any exit. -/
theorem configurationBlock_noDispose (c : FAudioCaptureIOS) (a : Bool) (e : OpenEnv) :
    NoDispose (configurationBlock c a e).calls := by
  unfold configurationBlock
  split
  · intro u; simp
  · have h1 : ∀ w : Option Nat, NoDispose [HwCall.AudioComponentInstanceNew w] := by
      intro w u; simp
    simp only
    split_ifs
    · exact h1 _
    · refine blockStep_noDispose _ _ _ _ _ _ _ (h1 _) fun _ h2 => ?_
      refine blockStep_noDispose _ _ _ _ _ _ _ h2 fun _ h3 => ?_
      refine blockStep_noDispose _ _ _ _ _ _ _ h3 fun _ h4 => ?_
      refine blockStep_noDispose _ _ _ _ _ _ _ h4 fun _ h5 => ?_
      exact blockInitialize_noDispose _ _ _ _ h5

/-- Opening disposes no unit, whichever exit is taken. -/
theorem open_noDispose (c : FAudioCaptureIOS) (a : Bool) (f n : Nat) (e : OpenEnv) :
    NoDispose (OpenAudioCaptureStream c a f n e).calls := by
  intro u
  have hb := configurationBlock_noDispose { c with OnCapture := some f } a e u
  unfold OpenAudioCaptureStream
  by_cases hc : c.bIsStreamOpen = true
  · simp [hc]
  · have hc0 : c.bIsStreamOpen = false := by simpa using hc
    simp only [hc0] at hb ⊢
    by_cases hd : e.permissionGranted = false ∧ e.requestGranted = false
    · simp [hd]
    · by_cases h1 : e.setCategoryError = true
      · simp only [Bool.false_eq_true, if_false, if_neg hd, if_pos h1]
        split_ifs <;> simp
      · by_cases h2 : e.setActiveError = true
        · simp only [Bool.false_eq_true, if_false, if_neg hd, if_neg h1, if_pos h2]
          split_ifs <;> simp
        · simp only [Bool.false_eq_true, if_false, if_neg hd, if_neg h1, if_neg h2]
          split_ifs <;> simp [hb]

/-- Closing disposes exactly the unit held, if any. -/
theorem close_disposes (c : FAudioCaptureIOS) (st : OSStatus) (u : Option Nat) :
    HwCall.AudioComponentInstanceDispose u ∈ (CloseStream c st).calls ↔
      c.IOUnit ≠ none ∧ u = c.IOUnit := by
  rcases c with ⟨unit, N, SR, CB, BS, OC, o, cap⟩
  cases unit <;> cases o <;> cases cap <;>
    simp [CloseStream, StopStream, IsStreamOpen, IsCapturing, eq_comm]

/-- Stopping changes neither the handle nor the open flag, and disposes nothing. -/
theorem stop_frame (c : FAudioCaptureIOS) (st : OSStatus) :
    (StopStream c st).self.IOUnit = c.IOUnit ∧
    (StopStream c st).self.bIsStreamOpen = c.bIsStreamOpen ∧
    NoDispose (StopStream c st).calls := by
  unfold StopStream NoDispose
  split_ifs <;> simp

/-- Starting changes neither the handle nor the open flag, and disposes nothing. -/
theorem start_frame (c : FAudioCaptureIOS) (se : StartEnv) :
    (StartStream c se).self.IOUnit = c.IOUnit ∧
    (StartStream c se).self.bIsStreamOpen = c.bIsStreamOpen ∧
    NoDispose (StartStream c se).calls := by
  unfold StartStream NoDispose
  split_ifs <;> simp

/-- Aborting disposes exactly the unit held, if any. -/
theorem abort_disposes (c : FAudioCaptureIOS) (st st2 : OSStatus) (u : Option Nat) :
    HwCall.AudioComponentInstanceDispose u ∈ (AbortStream c st st2).calls ↔
      c.IOUnit ≠ none ∧ u = c.IOUnit := by
  obtain ⟨h1, -, h3⟩ := stop_frame c st
  have h := close_disposes (StopStream c st).self st2 u
  rw [h1] at h
  unfold AbortStream
  simp only [List.mem_append, h]
  exact ⟨fun hh => hh.elim (fun hh => absurd hh (h3 u)) id, Or.inr⟩

/-- Claim C2, amended: an open that returns false leaves the stream closed, an open that
returns true leaves it open; once the instantiation has answered on a closed stream, `IOUnit`
holds what it wrote, also when a later step fails, and no exit of the open disposes a unit.
Start and stop change neither the handle nor the open flag and dispose nothing. Close and
abort always end with no handle and a closed stream, and dispose exactly the handle that was
held. Hence a held handle implies an open stream after every close, abort and successful
open, and start and stop preserve that implication. -/
theorem C2_handle_and_open_flag (c : FAudioCaptureIOS) (a : Bool) (f n : Nat) (e : OpenEnv)
    (se : StartEnv) (st st2 : OSStatus) :
    ((OpenAudioCaptureStream c a f n e).value = false →
      (OpenAudioCaptureStream c a f n e).self.bIsStreamOpen = false) ∧
    ((OpenAudioCaptureStream c a f n e).value = true →
      (OpenAudioCaptureStream c a f n e).self.bIsStreamOpen = true ∧
      HandleImpliesOpen (OpenAudioCaptureStream c a f n e).self) ∧
    (∀ status written, c.bIsStreamOpen = false →
      (e.permissionGranted = true ∨ e.requestGranted = true) →
      e.setCategoryError = false → e.setActiveError = false →
      e.instanceNew = some (status, written) →
        (OpenAudioCaptureStream c a f n e).self.IOUnit = written) ∧
    NoDispose (OpenAudioCaptureStream c a f n e).calls ∧
    ((CloseStream c st).self.IOUnit = none ∧ (CloseStream c st).self.bIsStreamOpen = false ∧
      HandleImpliesOpen (CloseStream c st).self ∧
      ∀ u, HwCall.AudioComponentInstanceDispose u ∈ (CloseStream c st).calls ↔
        c.IOUnit ≠ none ∧ u = c.IOUnit) ∧
    ((AbortStream c st st2).self.IOUnit = none ∧
      (AbortStream c st st2).self.bIsStreamOpen = false ∧
      HandleImpliesOpen (AbortStream c st st2).self ∧
      ∀ u, HwCall.AudioComponentInstanceDispose u ∈ (AbortStream c st st2).calls ↔
        c.IOUnit ≠ none ∧ u = c.IOUnit) ∧
    ((StartStream c se).self.IOUnit = c.IOUnit ∧
      (StartStream c se).self.bIsStreamOpen = c.bIsStreamOpen ∧
      NoDispose (StartStream c se).calls ∧
      (HandleImpliesOpen c → HandleImpliesOpen (StartStream c se).self)) ∧
    ((StopStream c st).self.IOUnit = c.IOUnit ∧
      (StopStream c st).self.bIsStreamOpen = c.bIsStreamOpen ∧
      NoDispose (StopStream c st).calls ∧
      (HandleImpliesOpen c → HandleImpliesOpen (StopStream c st).self)) := by
  obtain ⟨hs1, hs2, hs3⟩ := start_frame c se
  obtain ⟨ht1, ht2, ht3⟩ := stop_frame c st
  refine ⟨?_, ?_, ?_, open_noDispose c a f n e,
    ⟨rfl, rfl, fun h => absurd rfl h, close_disposes c st⟩,
    ⟨rfl, rfl, fun h => absurd rfl h, abort_disposes c st st2⟩,
    ⟨hs1, hs2, hs3, ?_⟩, ⟨ht1, ht2, ht3, ?_⟩⟩
  · intro h; rw [open_flag_eq_value]; exact h
  · intro h
    have ho : (OpenAudioCaptureStream c a f n e).self.bIsStreamOpen = true := by
      rw [open_flag_eq_value]; exact h
    exact ⟨ho, fun _ => ho⟩
  · intro status written hc hperm hcat hact hnew
    have hb := (configurationBlock_spec { c with OnCapture := some f } a e hc).1
    unfold OpenAudioCaptureStream
    rw [hnew] at hb
    rcases hperm with hp | hp <;> simp_all
    all_goals split_ifs <;> simp_all
  · intro h
    unfold HandleImpliesOpen at h ⊢
    rw [hs1, hs2]
    exact h
  · intro h
    unfold HandleImpliesOpen at h ⊢
    rw [ht1, ht2]
    exact h

/-- Instance of the amended claim C2: the failed open of the counterexample leaves the stream
closed and the instantiated unit `7` in `IOUnit`, and none of its calls disposes a unit. -/
theorem C2_handle_and_open_flag_witness :
    (OpenAudioCaptureStream (constructed 1 48000) true 1 512
        (envEnableInputFails 7)).self.bIsStreamOpen = false ∧
    (OpenAudioCaptureStream (constructed 1 48000) true 1 512
        (envEnableInputFails 7)).self.IOUnit = some 7 ∧
    NoDispose (OpenAudioCaptureStream (constructed 1 48000) true 1 512
        (envEnableInputFails 7)).calls :=
  ⟨(C2_handle_and_open_flag (constructed 1 48000) true 1 512 (envEnableInputFails 7)
      ⟨0, 0⟩ 0 0).1 (by decide),
    (C2_handle_and_open_flag (constructed 1 48000) true 1 512 (envEnableInputFails 7)
      ⟨0, 0⟩ 0 0).2.2.1 noErr (some 7) rfl (Or.inl rfl) rfl rfl rfl,
    (C2_handle_and_open_flag (constructed 1 48000) true 1 512 (envEnableInputFails 7)
      ⟨0, 0⟩ 0 0).2.2.2.1⟩

/-! ## Opening twice -/

theorem blockFinish_calls (c : FAudioCaptureIOS) (calls : List HwCall) (a : Bool) (e : OpenEnv)
    (st : OSStatus) (x : HwCall) (hx : x ∈ calls) : x ∈ (blockFinish c calls a e st).calls := by
  unfold blockFinish
  split_ifs <;> simp [hx]

theorem blockInitialize_calls (c : FAudioCaptureIOS) (calls : List HwCall) (a : Bool)
    (e : OpenEnv) (x : HwCall) (hx : x ∈ calls) : x ∈ (blockInitialize c calls a e).calls := by
  unfold blockInitialize
  split
  · exact hx
  · split_ifs
    · split
      · simp [hx]
      · split_ifs
        · simp [hx]
        · exact blockFinish_calls _ _ _ _ _ _ (by simp [hx])
    · simp [hx]
    · exact blockFinish_calls _ _ _ _ _ _ (by simp [hx])

theorem blockStep_calls (c : FAudioCaptureIOS) (calls : List HwCall) (status : Option OSStatus)
    (call : HwCall) (next : List HwCall → BlockOutcome) (x : HwCall) (hx : x ∈ calls)
    (hnext : ∀ l, x ∈ l → x ∈ (next l).calls) : x ∈ (blockStep c calls status call next).calls := by
  unfold blockStep
  split
  · exact hx
  · split_ifs
    · simp [hx]
    · exact hnext _ (by simp [hx])

/-- Once the instantiation has answered, the block reports the instantiation call. -/
theorem configurationBlock_calls (c : FAudioCaptureIOS) (a : Bool) (e : OpenEnv)
    (st : OSStatus) (written : Option Nat) (h : e.instanceNew = some (st, written)) :
    HwCall.AudioComponentInstanceNew written ∈ (configurationBlock c a e).calls := by
  unfold configurationBlock
  rw [h]
  simp only
  split_ifs
  · simp
  · refine blockStep_calls _ _ _ _ _ _ (by simp) fun _ h2 => ?_
    refine blockStep_calls _ _ _ _ _ _ h2 fun _ h3 => ?_
    refine blockStep_calls _ _ _ _ _ _ h3 fun _ h4 => ?_
    refine blockStep_calls _ _ _ _ _ _ h4 fun _ h5 => ?_
    exact blockInitialize_calls _ _ _ _ _ h5

/-- An open that reports no instantiation call leaves `IOUnit` as it was. -/
theorem open_without_instantiation (c : FAudioCaptureIOS) (a : Bool) (f n : Nat) (e : OpenEnv)
    (h : ∀ w, HwCall.AudioComponentInstanceNew w ∉ (OpenAudioCaptureStream c a f n e).calls) :
    (OpenAudioCaptureStream c a f n e).self.IOUnit = c.IOUnit := by
  by_cases hc : c.bIsStreamOpen = true
  · simp [OpenAudioCaptureStream, hc]
  · have hc0 : c.bIsStreamOpen = false := by simpa using hc
    have hb := (configurationBlock_spec { c with OnCapture := some f } a e hc0).1
    cases hnew : e.instanceNew with
    | none =>
      rw [hnew] at hb
      unfold OpenAudioCaptureStream
      simp only [hc0]
      split_ifs <;> simp_all
    | some p =>
      obtain ⟨st, w⟩ := p
      have hin := configurationBlock_calls { c with OnCapture := some f } a e st w hnew
      have hw := h w
      clear hb h
      simp only [hc0] at hin
      by_cases hd : e.permissionGranted = false ∧ e.requestGranted = false
      · simp only [OpenAudioCaptureStream, hc0, Bool.false_eq_true, if_false, if_pos hd]
      · by_cases h1 : e.setCategoryError = true
        · simp only [OpenAudioCaptureStream, hc0, Bool.false_eq_true, if_false, if_neg hd,
            if_pos h1]
        · by_cases h2 : e.setActiveError = true
          · simp only [OpenAudioCaptureStream, hc0, Bool.false_eq_true, if_false, if_neg hd,
              if_neg h1, if_pos h2]
          · exfalso
            apply hw
            simp only [OpenAudioCaptureStream, hc0, Bool.false_eq_true, if_false, if_neg hd,
              if_neg h1, if_neg h2]
            split_ifs <;> simp [hin]

/-- Claim C5 as stated fails: the first open of the constructed stream instantiates unit `7`
and fails when enabling the input, keeping unit `7` in `IOUnit`; the second open, with no
close in between, succeeds. It returns true although it changes fields, and it instantiates
unit `8` while unit `7` has not been disposed by either call. -/
theorem C5_counterexample :
    (OpenAudioCaptureStream (constructed 1 48000) true 1 512
        (envEnableInputFails 7)).self.IOUnit = some 7 ∧
    HwCall.AudioComponentInstanceNew (some 7) ∈
      (OpenAudioCaptureStream (constructed 1 48000) true 1 512 (envEnableInputFails 7)).calls ∧
    HwCall.AudioComponentInstanceNew (some 8) ∈
      (OpenAudioCaptureStream
        (OpenAudioCaptureStream (constructed 1 48000) true 1 512 (envEnableInputFails 7)).self
        true 1 512 (envSucceeds 8)).calls ∧
    HwCall.AudioComponentInstanceDispose (some 7) ∉
      (OpenAudioCaptureStream (constructed 1 48000) true 1 512 (envEnableInputFails 7)).calls
        ++ (OpenAudioCaptureStream
          (OpenAudioCaptureStream (constructed 1 48000) true 1 512 (envEnableInputFails 7)).self
          true 1 512 (envSucceeds 8)).calls ∧
    ¬ (((OpenAudioCaptureStream
          (OpenAudioCaptureStream (constructed 1 48000) true 1 512 (envEnableInputFails 7)).self
          true 1 512 (envSucceeds 8)).value = true ∧
        (OpenAudioCaptureStream
          (OpenAudioCaptureStream (constructed 1 48000) true 1 512 (envEnableInputFails 7)).self
          true 1 512 (envSucceeds 8)).self
          = (OpenAudioCaptureStream (constructed 1 48000) true 1 512
              (envEnableInputFails 7)).self) ∨
      (OpenAudioCaptureStream
          (OpenAudioCaptureStream (constructed 1 48000) true 1 512 (envEnableInputFails 7)).self
          true 1 512 (envSucceeds 8)).value = false) := by
  decide

/-- Claim C5, amended: when the first open returns true, a second open with no close in
between returns true, changes no field and makes no platform call; when the first open
returns false the stream is still closed, so the second call is a fresh attempt that may
succeed; the second call reports an instantiation only after a first call that returned
false; and a first call that reported no instantiation left `IOUnit` as it found it. -/
theorem C5_second_open (c : FAudioCaptureIOS) (a a2 : Bool) (f n f2 n2 : Nat)
    (e e2 : OpenEnv) :
    ((OpenAudioCaptureStream c a f n e).value = true →
      OpenAudioCaptureStream (OpenAudioCaptureStream c a f n e).self a2 f2 n2 e2
        = ⟨(OpenAudioCaptureStream c a f n e).self, true, []⟩) ∧
    ((OpenAudioCaptureStream c a f n e).value = false →
      (OpenAudioCaptureStream c a f n e).self.bIsStreamOpen = false) ∧
    (∀ w, HwCall.AudioComponentInstanceNew w ∈
        (OpenAudioCaptureStream (OpenAudioCaptureStream c a f n e).self a2 f2 n2 e2).calls →
      (OpenAudioCaptureStream c a f n e).value = false) ∧
    ((∀ w, HwCall.AudioComponentInstanceNew w ∉ (OpenAudioCaptureStream c a f n e).calls) →
      (OpenAudioCaptureStream c a f n e).self.IOUnit = c.IOUnit) := by
  have hopen : (OpenAudioCaptureStream c a f n e).value = true →
      OpenAudioCaptureStream (OpenAudioCaptureStream c a f n e).self a2 f2 n2 e2
        = ⟨(OpenAudioCaptureStream c a f n e).self, true, []⟩ := by
    intro h
    have hflag := open_flag_eq_value c a f n e
    rw [h] at hflag
    generalize (OpenAudioCaptureStream c a f n e).self = c1 at hflag ⊢
    simp [OpenAudioCaptureStream, hflag]
  refine ⟨hopen, ?_, ?_, open_without_instantiation c a f n e⟩
  · intro h; rw [open_flag_eq_value]; exact h
  · intro w hw
    cases hv : (OpenAudioCaptureStream c a f n e).value with
    | false => rfl
    | true => rw [hopen hv] at hw; simp at hw

/-- Instance of the amended claim C5: after a successful first open on unit `7`, a second
open that would hand out unit `8` is a no-op returning true. -/
theorem C5_second_open_witness :
    OpenAudioCaptureStream
        (OpenAudioCaptureStream (constructed 1 48000) true 1 512 (envSucceeds 7)).self
        true 2 512 (envSucceeds 8)
      = ⟨(OpenAudioCaptureStream (constructed 1 48000) true 1 512 (envSucceeds 7)).self,
          true, []⟩ :=
  (C5_second_open (constructed 1 48000) true true 1 512 2 512 (envSucceeds 7)
    (envSucceeds 8)).1 (by decide)

/-! ## Render callback on a closed stream -/

/-- Claim C7: when the stream is not open, or holds no hardware handle, the render callback
returns the non zero status `-1` for every frame count; it makes no call at all (no hardware
render, no consumer callback, no resize) and leaves every field, the scratch buffer and its
size included, unchanged. -/
theorem C7_render_on_closed_stream (c : FAudioCaptureIOS) (inNumberFrames : Nat)
    (e : RenderEnv) (h : c.bIsStreamOpen = false ∨ c.IOUnit = none) :
    OnCaptureCallback c inNumberFrames e = some ⟨c, -1, []⟩ ∧ (-1 : OSStatus) ≠ noErr := by
  refine ⟨?_, by decide⟩
  unfold OnCaptureCallback
  rcases h with h | h <;> simp [h]

/-- Instance of claim C7 on the constructed stream, which is closed and has no handle. -/
theorem C7_render_on_closed_stream_witness :
    OnCaptureCallback (constructed 1 48000) 128 ⟨noErr, []⟩
      = some ⟨constructed 1 48000, -1, []⟩ ∧ (-1 : OSStatus) ≠ noErr :=
  C7_render_on_closed_stream (constructed 1 48000) 128 ⟨noErr, []⟩ (Or.inl rfl)

/-! ## Scratch buffer arithmetic -/

theorem toSizeT_of_range (x : Int) (h0 : 0 ≤ x) (h1 : x < 18446744073709551616) :
    toSizeT x = x := by
  unfold toSizeT
  exact Int.emod_eq_of_lt h0 h1

/-- Without wrap around the needed size is the exact product. -/
theorem NeededBufferSize_exact (c : FAudioCaptureIOS) (n : Nat) (hN : 1 ≤ c.NumChannels)
    (hn : (n : Int) * c.NumChannels * 4 < 2147483648) :
    NeededBufferSize c n = (n : Int) * c.NumChannels * 4 := by
  have hp : 0 ≤ (n : Int) * c.NumChannels := mul_nonneg (Int.ofNat_nonneg n) (by omega)
  unfold NeededBufferSize toInt32 toSizeT toUInt32 sizeofFloat
  generalize (n : Int) * c.NumChannels = p at hp hn ⊢
  split_ifs <;> omega

/-- Without wrap around `CaptureBufferBytes` is the plain total, and it is positive. -/
theorem CaptureBufferBytes_exact (c : FAudioCaptureIOS) (S : Int) (hN1 : 1 ≤ c.NumChannels)
    (hN2 : c.NumChannels < 2147483648) (hS0 : 0 ≤ S) (hS1 : S < 2147483648) :
    CaptureBufferBytes c S = blockBytes c.NumChannels S ∧ 0 < blockBytes c.NumChannels S := by
  have h1 : toSizeT S = S := toSizeT_of_range S hS0 (by omega)
  have h2 : toSizeT (sizeofAudioBuffer + S) = 16 + S := by
    unfold sizeofAudioBuffer
    exact toSizeT_of_range _ (by omega) (by omega)
  have h3 : toSizeT c.NumChannels = c.NumChannels :=
    toSizeT_of_range _ (by omega) (by omega)
  have hq0 : 0 < c.NumChannels * (16 + S) := mul_pos (by omega) (by omega)
  have hq1 : c.NumChannels * (16 + S) < 2147483648 * 4294967296 :=
    mul_lt_mul'' hN2 (by omega) (by omega) (by omega)
  unfold CaptureBufferBytes blockBytes
  rw [h1, h2, h3]
  unfold sizeofAudioBufferList sizeofAudioBuffer
  refine ⟨toSizeT_of_range _ (by omega) (by omega), by omega⟩

/-- A block that fits the `int32` size of the array bounds the bytes per channel. -/
theorem size_lt_of_block (N S : Int) (hN1 : 1 ≤ N) (hS0 : 0 ≤ S)
    (hB : blockBytes N S < 2147483648) : S < 2147483648 := by
  have h : 1 * (16 + S) ≤ N * (16 + S) := mul_le_mul_of_nonneg_right hN1 (by omega)
  unfold blockBytes sizeofAudioBufferList sizeofAudioBuffer at hB
  omega

theorem setByteSizes_length (k : Nat) (size : Int) (l : List AudioBuffer) :
    (setByteSizes k size l).length = l.length := by
  induction l generalizing k with
  | nil => cases k <;> rfl
  | cons b bs ih => cases k <;> simp [setByteSizes, ih]

theorem hardwareWrite_length (w : List Int) (l : List AudioBuffer) :
    (hardwareWrite w l).length = l.length := by
  induction l generalizing w with
  | nil => cases w <;> rfl
  | cons b bs ih => cases w <;> simp [hardwareWrite, ih]

/-- After the loop of lines 446-449, run over at least as many indices as there are
descriptors, every descriptor carries `size`. -/
theorem setByteSizes_all (k : Nat) (size : Int) (l : List AudioBuffer) (h : l.length ≤ k) :
    ∀ b ∈ setByteSizes k size l, b.mDataByteSize = size := by
  induction l generalizing k with
  | nil => cases k <;> simp [setByteSizes]
  | cons x xs ih =>
    cases k with
    | zero => simp at h
    | succ k =>
      intro b hb
      simp only [setByteSizes, List.mem_cons] at hb
      rcases hb with hb | hb
      · rw [hb]
      · exact ih k (by simpa using h) b hb

/-- Outcome of `AllocateBuffer` when the block fits the `int32` size of the array: the array
is resized to the exact total and holds one descriptor per channel; no other field changes. -/
theorem AllocateBuffer_in_range (c : FAudioCaptureIOS) (S : Int) (hN1 : 1 ≤ c.NumChannels)
    (hS0 : 0 ≤ S) (hB : blockBytes c.NumChannels S < 2147483648) :
    AllocateBuffer c S =
      some ⟨{ c with CaptureBuffer :=
          { Num := blockBytes c.NumChannels S,
            mNumberBuffers := c.NumChannels,
            mBuffers := (List.range c.NumChannels.toNat).map (allocatedDescriptor S) } }, (),
        [.SetNumUninitialized (blockBytes c.NumChannels S)]⟩ := by
  have hS1 := size_lt_of_block _ S hN1 hS0 hB
  have hN2 : c.NumChannels < 2147483648 := by
    have h : c.NumChannels * 1 ≤ c.NumChannels * (16 + S) :=
      mul_le_mul_of_nonneg_left (by omega) (by omega)
    unfold blockBytes sizeofAudioBufferList sizeofAudioBuffer at hB
    omega
  obtain ⟨h1, h2⟩ := CaptureBufferBytes_exact c S hN1 hN2 hS0 hS1
  have hnarrow : toInt32 (blockBytes c.NumChannels S) = blockBytes c.NumChannels S := by
    unfold toInt32
    split_ifs <;> omega
  have hcount : toUInt32 c.NumChannels = c.NumChannels := by
    unfold toUInt32
    omega
  have hext : writtenExtent c.NumChannels ≤ blockBytes c.NumChannels S := by
    have h : c.NumChannels * 16 ≤ c.NumChannels * (16 + S) :=
      mul_le_mul_of_nonneg_left (by omega) (by omega)
    unfold writtenExtent descriptorOffset blockBytes sizeofAudioBufferList sizeofAudioBuffer
    rw [if_pos hN1]
    omega
  unfold AllocateBuffer
  simp only [h1, hnarrow, hcount]
  rw [if_neg (by omega), if_neg (by omega), if_neg (by omega), if_neg (by omega)]

/-- The facts about `ensureBuffer` used by the buffer claims. -/
theorem ensureBuffer_spec (c : FAudioCaptureIOS) (n : Nat) (hN1 : 1 ≤ c.NumChannels)
    (hok : BufferOk c)
    (hB : blockBytes c.NumChannels ((n : Int) * c.NumChannels * 4) < 2147483648) :
    ∃ r, ensureBuffer c n = some r ∧
    r.self.IOUnit = c.IOUnit ∧
    r.self.bIsStreamOpen = c.bIsStreamOpen ∧
    r.self.NumChannels = c.NumChannels ∧
    r.self.CaptureBuffer.Num ≠ 0 ∧
    r.self.CaptureBuffer.mNumberBuffers = c.NumChannels ∧
    (r.self.CaptureBuffer.mBuffers.length : Int) = c.NumChannels ∧
    c.BufferSize ≤ r.self.BufferSize ∧
    (n : Int) * c.NumChannels * 4 ≤ r.self.BufferSize ∧
    ((c.CaptureBuffer.Num = 0 ∨ c.BufferSize < (n : Int) * c.NumChannels * 4) →
      r.self.BufferSize = (n : Int) * c.NumChannels * 4) ∧
    (c.CaptureBuffer.Num ≠ 0 → (n : Int) * c.NumChannels * 4 ≤ c.BufferSize →
      r = ⟨c, (), []⟩) ∧
    (r.calls = [] ∨ ∃ bytes, r.calls = [.SetNumUninitialized bytes]) := by
  have hp : 0 ≤ (n : Int) * c.NumChannels := mul_nonneg (Int.ofNat_nonneg n) (by omega)
  have hn := size_lt_of_block _ _ hN1 (by omega) hB
  have hneed := NeededBufferSize_exact c n hN1 hn
  obtain ⟨hok1, hok2⟩ := hok
  unfold ensureBuffer
  rw [hneed]
  by_cases hgrow : c.CaptureBuffer.Num = 0 ∨ c.BufferSize < (n : Int) * c.NumChannels * 4
  · rw [if_pos hgrow]
    rw [AllocateBuffer_in_range { c with BufferSize := (n : Int) * c.NumChannels * 4 } _ hN1
      (by omega) hB]
    have hpos : 0 < c.NumChannels * (16 + (n : Int) * c.NumChannels * 4) :=
      mul_pos (by omega) (by omega)
    refine ⟨_, rfl, rfl, rfl, rfl, ?_, rfl, ?_, ?_, le_refl _, fun _ => rfl, ?_,
      Or.inr ⟨_, rfl⟩⟩
    · simp only [blockBytes, sizeofAudioBufferList, sizeofAudioBuffer]; omega
    · simp only [List.length_map, List.length_range]; omega
    · simp only
      rcases hgrow with h | h
      · rw [hok1 h]; omega
      · omega
    · intro h1 h2
      rcases hgrow with h | h
      · exact absurd h h1
      · omega
  · rw [if_neg hgrow]
    have h1 : c.CaptureBuffer.Num ≠ 0 := fun h => hgrow (Or.inl h)
    have h2 : (n : Int) * c.NumChannels * 4 ≤ c.BufferSize := by
      by_contra h
      exact hgrow (Or.inr (by omega))
    exact ⟨_, rfl, rfl, rfl, rfl, h1, (hok2 h1).1, (hok2 h1).2, le_refl _, h2,
      fun h => absurd h hgrow, fun _ _ => rfl, Or.inl rfl⟩

theorem afterRender_ok (c : FAudioCaptureIOS) (e : RenderEnv)
    (h1 : c.CaptureBuffer.Num ≠ 0) (h2 : c.CaptureBuffer.mNumberBuffers = c.NumChannels)
    (h3 : (c.CaptureBuffer.mBuffers.length : Int) = c.NumChannels) :
    BufferOk (afterRender c e) := by
  refine ⟨fun h => absurd h h1, fun _ => ⟨h2, ?_⟩⟩
  simp only [afterRender, preparedList, hardwareWrite_length, setByteSizes_length]
  exact h3

/-- One render callback on an open stream with a handle and a consistent scratch buffer,
for a frame count whose block fits the `int32` size of the array: the callback returns, the
only render call carries the prepared list, and the buffer stays consistent. -/
theorem callback_in_range (c : FAudioCaptureIOS) (n : Nat) (e : RenderEnv)
    (hopen : c.bIsStreamOpen = true) (hunit : c.IOUnit ≠ none) (hN1 : 1 ≤ c.NumChannels)
    (hok : BufferOk c)
    (hB : blockBytes c.NumChannels ((n : Int) * c.NumChannels * 4) < 2147483648) :
    ∃ r0 r, ensureBuffer c n = some r0 ∧ OnCaptureCallback c n e = some r ∧
      r.self = afterRender r0.self e ∧
      (∃ tail, r.calls = r0.calls ++
        HwCall.AudioUnitRender c.IOUnit n (preparedList r0.self) :: tail ∧
        (tail = [] ∨ ∃ d, tail = [.OnCapture r.self.OnCapture d n r.self.NumChannels
          r.self.SampleRate])) ∧
      BufferOk r.self := by
  obtain ⟨r0, hr0, hu, -, hN, h1, h2, h3, -⟩ := ensureBuffer_spec c n hN1 hok hB
  have hu0 : c.IOUnit.isNone = false := by
    cases h : c.IOUnit with
    | none => exact absurd h hunit
    | some _ => rfl
  have h2r : r0.self.CaptureBuffer.mNumberBuffers = r0.self.NumChannels := by
    rw [hN]; exact h2
  have h3r : (r0.self.CaptureBuffer.mBuffers.length : Int) = r0.self.NumChannels := by
    rw [hN]; exact h3
  have hok2 := afterRender_ok r0.self e h1 h2r h3r
  refine ⟨r0, ?_⟩
  unfold OnCaptureCallback
  simp only [hu0, hopen, Bool.not_true, Bool.or_self, Bool.false_eq_true, if_false, hr0]
  unfold renderAndForward
  rw [if_neg h1, hu]
  by_cases hs : e.renderStatus ≠ noErr
  · rw [if_pos hs]
    exact ⟨_, trivial, rfl, rfl, ⟨[], rfl, Or.inl rfl⟩, hok2⟩
  · rw [if_neg hs]
    have hne : (afterRender r0.self e).CaptureBuffer.mBuffers ≠ [] := by
      intro h
      have hl := (hok2.2 h1).2
      rw [h] at hl
      have hN2 : (afterRender r0.self e).NumChannels = c.NumChannels := hN
      rw [hN2] at hl
      simp only [List.length_nil, Nat.cast_zero] at hl
      omega
    cases hb : (afterRender r0.self e).CaptureBuffer.mBuffers with
    | nil => exact absurd hb hne
    | cons b bs => exact ⟨_, trivial, rfl, rfl, ⟨_, rfl, Or.inr ⟨_, rfl⟩⟩, hok2⟩

/-! ## Growth of the scratch buffer -/

/-- Claim C6 as stated fails: on the open mono stream with an empty scratch buffer a callback
of `2^29 - 1` frames meets every condition of the claim (its need, `2^31 - 4` bytes, is below
`2^31`), but the block of `AllocateBuffer` has `2^31 + 36` bytes, which the `int32` size of
the array narrows to `-2147483612`: the callback has no defined result, so nothing holds
after it. -/
theorem C6_counterexample :
    (openStream 1).bIsStreamOpen = true ∧ (openStream 1).IOUnit ≠ none ∧
    1 ≤ (openStream 1).NumChannels ∧
    (536870911 : Int) * (openStream 1).NumChannels * 4 < 2147483648 ∧
    ((openStream 1).CaptureBuffer.Num = 0 ∧ (openStream 1).BufferSize = 0) ∧
    NeededBufferSize (openStream 1) 536870911 = 2147483644 ∧
    CaptureBufferBytes (openStream 1) 2147483644 = 2147483684 ∧
    toInt32 (CaptureBufferBytes (openStream 1) 2147483644) = -2147483612 ∧
    OnCaptureCallback (openStream 1) 536870911 ⟨noErr, []⟩ = none ∧
    ¬ sizesGrow (openStream 1) hugeCallback := by
  refine ⟨by decide, by decide, by decide, by decide, by decide, by decide, by decide,
    by decide, by decide, ?_⟩
  rintro ⟨r, hr, -⟩
  have h : OnCaptureCallback (openStream 1) 536870911 ⟨noErr, []⟩ = none := by decide
  rw [h] at hr
  cases hr

/-- Claim C6, amended: on an open stream with a handle and at least one channel, whose
scratch buffer is consistent (`BufferOk` : an empty array has `BufferSize = 0`, a non empty
one holds one descriptor per channel), every sequence of render
callbacks whose whole block fits the `int32` size of the array,
`24 + channelCount * (16 + frameCount * channelCount * 4) < 2^31`, whatever the hardware
render statuses, satisfies `sizesGrow` : each callback returns, `BufferSize` after it is at
least its value before and at least `frameCount * channelCount * 4`, and a callback whose
need does not exceed the `BufferSize` of a non empty array leaves `Num` and `BufferSize`
unchanged and makes no resize call. -/
theorem C6_scratch_buffer_grows (calls : List (Nat × RenderEnv)) (c : FAudioCaptureIOS)
    (hopen : c.bIsStreamOpen = true) (hunit : c.IOUnit ≠ none) (hN1 : 1 ≤ c.NumChannels)
    (hok : BufferOk c)
    (hcalls : ∀ p ∈ calls,
      blockBytes c.NumChannels ((p.1 : Int) * c.NumChannels * 4) < 2147483648) :
    sizesGrow c calls := by
  induction calls generalizing c with
  | nil => trivial
  | cons p rest ih =>
    obtain ⟨n, e⟩ := p
    have hB : blockBytes c.NumChannels ((n : Int) * c.NumChannels * 4) < 2147483648 :=
      hcalls (n, e) (by simp)
    obtain ⟨r0, hr0, hu, ho, hN, -, -, -, hle, hneed, -, hsame, -⟩ :=
      ensureBuffer_spec c n hN1 hok hB
    obtain ⟨r0b, r, hr0b, hr, hself, ⟨tail, hcallsr, htail⟩, hokr⟩ :=
      callback_in_range c n e hopen hunit hN1 hok hB
    rw [hr0] at hr0b
    cases hr0b
    have hrN : r.self.NumChannels = c.NumChannels := by rw [hself]; exact hN
    refine ⟨r, hr, ?_, ?_, ?_, ?_⟩
    · rw [hself]; exact hle
    · rw [hself]; exact hneed
    · intro h1 h2
      have hs := hsame h1 h2
      rw [hself, hcallsr, hs]
      refine ⟨rfl, rfl, fun bytes hmem => ?_⟩
      simp only [List.nil_append, List.mem_cons, reduceCtorEq, false_or] at hmem
      rcases htail with ht | ⟨d, ht⟩ <;> rw [ht] at hmem <;> simp at hmem
    · refine ih r.self ?_ ?_ ?_ hokr ?_
      · rw [hself]; exact ho.trans hopen
      · rw [hself]; exact fun h => hunit (hu.symm.trans h)
      · rw [hrN]; exact hN1
      · intro q hq
        rw [hrN]
        exact hcalls q (by simp [hq])

/-- Instance of the amended claim C6: callbacks of 128, 256 and 512 frames on the mono
stream that was just opened; the sizes observed are 512, 1024 and 2048 bytes. -/
theorem C6_scratch_buffer_grows_witness :
    sizesGrow (openStream 1) growingCallbacks ∧
    ((observations (openStream 1)
        (growingCallbacks.map fun p => Op.Render p.1 p.2)).map fun s =>
          (s.BufferSize, s.CaptureBuffer.Num)) = [(512, 552), (1024, 1064), (2048, 2088)] :=
  ⟨C6_scratch_buffer_grows growingCallbacks (openStream 1) rfl (by decide) (by decide)
      ⟨fun _ => rfl, fun h => absurd rfl h⟩ (by decide),
    by decide⟩

/-! ## Descriptor byte sizes handed to the hardware -/

/-- Claim C9 as stated fails: the mono stream `afterBigCallback` is what a successful callback
of 512 frames leaves (`BufferSize = 2048`); in the next callback, of 128 frames, the need is
512 bytes, yet the descriptor handed to `AudioUnitRender` carries `mDataByteSize = 2048`. -/
theorem C9_counterexample :
    (OnCaptureCallback (openStream 1) 512 ⟨noErr, [2048]⟩).map Ret.self
      = some afterBigCallback ∧
    (128 : Int) * afterBigCallback.NumChannels * 4 = 512 ∧
    (OnCaptureCallback afterBigCallback 128 ⟨noErr, [512]⟩).map Ret.calls
      = some [.AudioUnitRender (some 7) 128 ⟨2088, 1, [⟨1, 2048, 40⟩]⟩,
              .OnCapture (some 1) 40 128 1 48000] ∧
    ¬ (∀ calls, (OnCaptureCallback afterBigCallback 128 ⟨noErr, [512]⟩).map Ret.calls
          = some calls →
        ∀ unit frames list, HwCall.AudioUnitRender unit frames list ∈ calls →
          ∀ b ∈ list.mBuffers, b.mDataByteSize = (128 : Int) * afterBigCallback.NumChannels * 4) := by
  refine ⟨by decide, by decide, by decide, fun h => ?_⟩
  have h1 := h _ (by decide : _ = some [.AudioUnitRender (some 7) 128 ⟨2088, 1, [⟨1, 2048, 40⟩]⟩,
              .OnCapture (some 1) 40 128 1 48000]) (some 7) 128 ⟨2088, 1, [⟨1, 2048, 40⟩]⟩
    (by simp) ⟨1, 2048, 40⟩ (by simp)
  revert h1
  decide

/-- Claim C9, amended: in every render callback on an open stream with a handle, at least one
channel and a consistent scratch buffer, whose whole block fits the `int32` size of the array
(`24 + channelCount * (16 + frameCount * channelCount * 4) < 2^31`), the callback returns and
requests a hardware render; the list handed to every render request of the callback has one
descriptor per channel, counted by `mNumberBuffers`, and every one of them carries the
current `BufferSize`
(converted to `UInt32`), not the bytes needed by this callback. `BufferSize` is at least the
need; it equals the need when this callback resized the buffer and keeps its earlier,
possibly larger, value otherwise. -/
theorem C9_descriptor_sizes (c : FAudioCaptureIOS) (n : Nat) (e : RenderEnv)
    (hopen : c.bIsStreamOpen = true) (hunit : c.IOUnit ≠ none) (hN1 : 1 ≤ c.NumChannels)
    (hok : BufferOk c)
    (hB : blockBytes c.NumChannels ((n : Int) * c.NumChannels * 4) < 2147483648) :
    ∃ r, OnCaptureCallback c n e = some r ∧
      (∃ list, HwCall.AudioUnitRender c.IOUnit n list ∈ r.calls) ∧
      (∀ unit frames list, HwCall.AudioUnitRender unit frames list ∈ r.calls →
        list.mNumberBuffers = c.NumChannels ∧
        (list.mBuffers.length : Int) = c.NumChannels ∧
        ∀ b ∈ list.mBuffers, b.mDataByteSize = toUInt32 r.self.BufferSize) ∧
      (n : Int) * c.NumChannels * 4 ≤ r.self.BufferSize ∧
      ((c.CaptureBuffer.Num = 0 ∨ c.BufferSize < (n : Int) * c.NumChannels * 4) →
        r.self.BufferSize = (n : Int) * c.NumChannels * 4) ∧
      (c.CaptureBuffer.Num ≠ 0 → (n : Int) * c.NumChannels * 4 ≤ c.BufferSize →
        r.self.BufferSize = c.BufferSize) := by
  obtain ⟨r0, hr0, -, -, -, -, h2, h3, -, hneed, hgrow, hsame, hcalls0⟩ :=
    ensureBuffer_spec c n hN1 hok hB
  obtain ⟨r0b, r, hr0b, hr, hself, ⟨tail, hcallsr, htail⟩, -⟩ :=
    callback_in_range c n e hopen hunit hN1 hok hB
  rw [hr0] at hr0b
  cases hr0b
  have hsize : r.self.BufferSize = r0.self.BufferSize := by rw [hself]; rfl
  refine ⟨r, hr, ⟨preparedList r0.self, by rw [hcallsr]; simp⟩, ?_, ?_, ?_, ?_⟩
  · intro unit frames list hmem
    have hlist : list = preparedList r0.self := by
      rw [hcallsr] at hmem
      rcases hcalls0 with h0 | ⟨bytes, h0⟩ <;> rcases htail with ht | ⟨d, ht⟩ <;>
        rw [h0, ht] at hmem <;> simp at hmem <;> exact hmem.2.2
    subst hlist
    refine ⟨h2, ?_, ?_⟩
    · simp only [preparedList, setByteSizes_length]; exact h3
    · rw [hsize]
      refine setByteSizes_all _ _ _ ?_
      rw [h2]
      omega
  · rw [hsize]; exact hneed
  · intro h; rw [hsize]; exact hgrow h
  · intro h1 h4; rw [hsize, hsame h1 h4]

/-- Instance of the amended claim C9: the callback of 128 frames on `afterBigCallback`. -/
theorem C9_descriptor_sizes_witness :
    ∃ r, OnCaptureCallback afterBigCallback 128 ⟨noErr, [512]⟩ = some r ∧
      (∃ list, HwCall.AudioUnitRender afterBigCallback.IOUnit 128 list ∈ r.calls) ∧
      (∀ unit frames list, HwCall.AudioUnitRender unit frames list ∈ r.calls →
        list.mNumberBuffers = afterBigCallback.NumChannels ∧
        (list.mBuffers.length : Int) = afterBigCallback.NumChannels ∧
        ∀ b ∈ list.mBuffers, b.mDataByteSize = toUInt32 r.self.BufferSize) ∧
      (128 : Int) * afterBigCallback.NumChannels * 4 ≤ r.self.BufferSize ∧
      ((afterBigCallback.CaptureBuffer.Num = 0 ∨
          afterBigCallback.BufferSize < (128 : Int) * afterBigCallback.NumChannels * 4) →
        r.self.BufferSize = (128 : Int) * afterBigCallback.NumChannels * 4) ∧
      (afterBigCallback.CaptureBuffer.Num ≠ 0 →
        (128 : Int) * afterBigCallback.NumChannels * 4 ≤ afterBigCallback.BufferSize →
        r.self.BufferSize = afterBigCallback.BufferSize) :=
  C9_descriptor_sizes afterBigCallback 128 ⟨noErr, [512]⟩ rfl (by decide) (by decide)
    ⟨fun h => absurd h (by decide), fun _ => by decide⟩ (by decide)

/-! ## Layout written by the allocator -/

/-- Offset written into descriptor `i` when nothing wraps around. -/
theorem allocatedDescriptor_mData (S : Int) (i : Nat) (hS0 : 0 ≤ S) (hS1 : S < 2147483648)
    (hi : (i : Int) < 2147483648) :
    (allocatedDescriptor S i).mData = 40 + (i : Int) * (S + 16) := by
  have h1 : toSizeT S = S := toSizeT_of_range S hS0 (by omega)
  have h2 : toSizeT (S + sizeofAudioBuffer) = S + 16 := by
    unfold sizeofAudioBuffer
    exact toSizeT_of_range _ (by omega) (by omega)
  have hq0 : 0 ≤ (i : Int) * (S + 16) := mul_nonneg (Int.ofNat_nonneg i) (by omega)
  have hq1 : (i : Int) * (S + 16) < 2147483648 * 4294967296 :=
    mul_lt_mul'' hi (by omega) (Int.ofNat_nonneg i) (by omega)
  unfold allocatedDescriptor
  simp only [h1, h2]
  unfold sizeofAudioBufferList sizeofAudioBuffer
  rw [toSizeT_of_range _ (by omega) (by omega)]
  omega

/-- The layout written by `AllocateBuffer` for `N` channels of `S` bytes, nothing wrapping
around: every data region starts after the list header, ends inside the block of
`24 + N * (16 + S)` bytes, and lies before the region of every later descriptor. With at most
two channels no region touches a descriptor; with three or more channels and `S > 0` the
region of descriptor 0 overlaps the storage of descriptor 2. -/
theorem allocated_layout (N S : Int) (i j : Nat) (hN2 : N < 2147483648) (hS0 : 0 ≤ S)
    (hS1 : S < 2147483648) (hi : (i : Int) < N) (hj : (j : Int) < N) :
    sizeofAudioBufferList ≤ (allocatedDescriptor S i).mData ∧
    (allocatedDescriptor S i).mData + S ≤ 24 + N * (16 + S) ∧
    (i < j → (allocatedDescriptor S i).mData + S ≤ (allocatedDescriptor S j).mData) ∧
    (N ≤ 2 →
      ¬ overlap (allocatedDescriptor S i).mData S (descriptorOffset j) sizeofAudioBuffer) ∧
    (3 ≤ N → 0 < S →
      overlap (allocatedDescriptor S 0).mData S (descriptorOffset 2) sizeofAudioBuffer) := by
  rw [allocatedDescriptor_mData S i hS0 hS1 (by omega),
    allocatedDescriptor_mData S j hS0 hS1 (by omega),
    allocatedDescriptor_mData S 0 hS0 hS1 (by omega)]
  have hx0 : 0 ≤ (i : Int) * (S + 16) := mul_nonneg (Int.ofNat_nonneg i) (by omega)
  have hx1 : (i : Int) * (S + 16) ≤ (N - 1) * (S + 16) :=
    mul_le_mul_of_nonneg_right (by omega) (by omega)
  have hN : (N - 1) * (S + 16) = N * (16 + S) - S - 16 := by ring
  unfold descriptorOffset overlap sizeofAudioBufferList sizeofAudioBuffer
  refine ⟨by omega, by omega, fun hij => ?_, fun hN2 => by omega, fun _ hS => ?_⟩
  · have hxy : ((i : Int) + 1) * (S + 16) ≤ (j : Int) * (S + 16) :=
      mul_le_mul_of_nonneg_right (by omega) (by omega)
    have he : ((i : Int) + 1) * (S + 16) = (i : Int) * (S + 16) + S + 16 := by ring
    omega
  · simp only [Nat.cast_zero, zero_mul, Nat.cast_ofNat]
    omega

/-- Claim C8, evaluated on the code: with three channels and 12 bytes per channel (one frame)
the block has 108 bytes and the data regions start at offsets 40, 68 and 96; the region of
descriptor 0, `[40, 52)`, overlaps the storage of descriptor 2, which occupies the 16 bytes
at offset `descriptorOffset 2 = 40`, and it is the only region that does. The regions lie
inside the block and are pairwise disjoint. -/
theorem C8_three_channels_overlap :
    NeededBufferSize (openStream 3) 1 = 12 ∧
    AllocateBuffer (openStream 3) 12
      = some ⟨{ openStream 3 with
                CaptureBuffer := ⟨108, 3, [⟨1, 12, 40⟩, ⟨1, 12, 68⟩, ⟨1, 12, 96⟩]⟩ }, (),
              [.SetNumUninitialized 108]⟩ ∧
    descriptorOffset 2 = 40 ∧
    overlap 40 12 (descriptorOffset 2) sizeofAudioBuffer ∧
    (∀ r, AllocateBuffer (openStream 3) 12 = some r →
      (∀ b ∈ r.self.CaptureBuffer.mBuffers,
        (overlap b.mData 12 (descriptorOffset 2) sizeofAudioBuffer ↔ b.mData = 40) ∧
        sizeofAudioBufferList ≤ b.mData ∧ b.mData + 12 ≤ r.self.CaptureBuffer.Num) ∧
      r.self.CaptureBuffer.mBuffers.Pairwise (fun a b => ¬ overlap a.mData 12 b.mData 12)) := by
  have h : AllocateBuffer (openStream 3) 12
      = some ⟨{ openStream 3 with
                CaptureBuffer := ⟨108, 3, [⟨1, 12, 40⟩, ⟨1, 12, 68⟩, ⟨1, 12, 96⟩]⟩ }, (),
              [.SetNumUninitialized 108]⟩ := by decide
  refine ⟨by decide, h, by decide, by decide, fun r hr => ?_⟩
  rw [h] at hr
  cases hr
  exact ⟨by decide, by decide⟩

/-! ## The guard of the allocator -/

/-- The guard of `AllocateBuffer` rejects exactly the totals that are zero modulo `2^64` :
only then does the function return without a call and without a change. -/
theorem AllocateBuffer_rejects_iff (c : FAudioCaptureIOS) (S : Int) :
    AllocateBuffer c S = some ⟨c, (), []⟩ ↔ CaptureBufferBytes c S = 0 := by
  have hnn : 0 ≤ CaptureBufferBytes c S := Int.emod_nonneg _ (by decide)
  unfold AllocateBuffer
  generalize CaptureBufferBytes c S = t at hnn
  simp only
  split_ifs with h1 h2 h3 h4
  · simp only [true_iff]; omega
  · simp only [reduceCtorEq, false_iff]; omega
  · simp only [Option.some.injEq, Ret.mk.injEq, List.cons_ne_self, reduceCtorEq, and_false,
      false_iff]
    omega
  · simp only [reduceCtorEq, false_iff]; omega
  · simp only [Option.some.injEq, Ret.mk.injEq, List.cons_ne_self, reduceCtorEq, and_false,
      false_iff]
    omega

/-- Claim C10, evaluated on the code: a callback of `2^29` frames on the mono stream with an
empty scratch buffer computes `NeededBufferSize = -2^31`; the total
`24 + 1 * (16 + (-2^31))` is negative, yet `AllocateBuffer` does not return at its guard: the
unsigned `CaptureBufferBytes` is `2^64 - 2^31 + 40`, which is not `<= 0`. The function is
therefore not the no-op of the claim; it goes on to request a resize, with the narrowed size
`-2147483608`, for which neither it nor the callback has a defined result. -/
theorem C10_negative_total_not_rejected :
    NeededBufferSize (openStream 1) 536870912 = -2147483648 ∧
    blockBytes (openStream 1).NumChannels (-2147483648) ≤ 0 ∧
    CaptureBufferBytes (openStream 1) (-2147483648) = 18446744071562068008 ∧
    ¬ (CaptureBufferBytes (openStream 1) (-2147483648) ≤ 0) ∧
    toInt32 (CaptureBufferBytes (openStream 1) (-2147483648)) = -2147483608 ∧
    AllocateBuffer (openStream 1) (-2147483648) ≠ some ⟨openStream 1, (), []⟩ ∧
    AllocateBuffer (openStream 1) (-2147483648) = none ∧
    OnCaptureCallback (openStream 1) 536870912 ⟨noErr, []⟩ = none := by
  refine ⟨by decide, by decide, by decide, by decide, by decide, by decide, by decide,
    by decide⟩

/-! ## Where the lifecycle invariant holds -/

theorem AllocateBuffer_flags (c : FAudioCaptureIOS) (S : Int) (r : Ret Unit)
    (h : AllocateBuffer c S = some r) :
    r.self.bIsStreamOpen = c.bIsStreamOpen ∧
    r.self.bHasCaptureStarted = c.bHasCaptureStarted := by
  unfold AllocateBuffer at h
  simp only at h
  split_ifs at h <;> cases h <;> exact ⟨rfl, rfl⟩

theorem ensureBuffer_flags (c : FAudioCaptureIOS) (n : Nat) (r : Ret Unit)
    (h : ensureBuffer c n = some r) :
    r.self.bIsStreamOpen = c.bIsStreamOpen ∧
    r.self.bHasCaptureStarted = c.bHasCaptureStarted := by
  unfold ensureBuffer at h
  split_ifs at h
  · exact AllocateBuffer_flags { c with BufferSize := NeededBufferSize c n } _ r h
  · cases h; exact ⟨rfl, rfl⟩

/-- The render callback never changes the open flag or the capturing flag. -/
theorem OnCaptureCallback_flags (c : FAudioCaptureIOS) (n : Nat) (e : RenderEnv)
    (r : Ret OSStatus) (h : OnCaptureCallback c n e = some r) :
    r.self.bIsStreamOpen = c.bIsStreamOpen ∧
    r.self.bHasCaptureStarted = c.bHasCaptureStarted := by
  unfold OnCaptureCallback at h
  by_cases hg : (c.IOUnit.isNone || !c.bIsStreamOpen) = true
  · rw [if_pos hg] at h
    cases h
    exact ⟨rfl, rfl⟩
  · rw [if_neg hg] at h
    cases hr0 : ensureBuffer c n with
    | none => simp [hr0] at h
    | some r0 =>
      have hf := ensureBuffer_flags c n r0 hr0
      simp only [hr0] at h
      unfold renderAndForward at h
      by_cases h0 : r0.self.CaptureBuffer.Num = 0
      · rw [if_pos h0] at h
        cases h
      · rw [if_neg h0] at h
        by_cases hs : e.renderStatus ≠ noErr
        · simp only [if_pos hs, Option.some.injEq] at h
          subst h
          exact hf
        · simp only [if_neg hs] at h
          cases hb : (afterRender r0.self e).CaptureBuffer.mBuffers with
          | nil => simp [hb] at h
          | cons b bs =>
            simp only [hb, Option.some.injEq] at h
            subst h
            exact hf

/-- The consistency `BufferOk` holds of the constructed stream and survives opening,
starting, stopping, closing and aborting, for every outcome of the platform calls; the render
callback keeps it by `callback_in_range`. -/
theorem BufferOk_preserved (c : FAudioCaptureIOS) (a : Bool) (f n : Nat) (e : OpenEnv)
    (se : StartEnv) (st st2 : OSStatus) (N SR : Int) :
    BufferOk (constructed N SR) ∧
    (BufferOk c → BufferOk (OpenAudioCaptureStream c a f n e).self) ∧
    (BufferOk c → BufferOk (StartStream c se).self) ∧
    (BufferOk c → BufferOk (StopStream c st).self) ∧
    BufferOk (CloseStream c st).self ∧
    BufferOk (AbortStream c st st2).self := by
  refine ⟨⟨fun _ => rfl, fun h => absurd rfl h⟩, ?_, ?_, ?_,
    ⟨fun _ => rfl, fun h => absurd rfl h⟩, ⟨fun _ => rfl, fun h => absurd rfl h⟩⟩
  · intro h
    obtain ⟨-, h2, h3, h4⟩ := open_frame c a f n e
    unfold BufferOk at h ⊢
    rw [h2, h3, h4]
    exact h
  · intro h
    unfold StartStream
    split_ifs <;> exact h
  · intro h
    unfold StopStream
    split_ifs <;> exact h

/-- The invariant `CapturingImpliesOpen` survives every operation, for every outcome of the
platform calls, except a close or abort of a capturing stream whose hardware stops fail. -/
theorem capturing_implies_open_preserved (c c1 : FAudioCaptureIOS) (op : Op)
    (hinv : CapturingImpliesOpen c) (hop : ¬ closesWithFailedStop c op)
    (hstep : step c op = some c1) : CapturingImpliesOpen c1 := by
  unfold CapturingImpliesOpen at hinv ⊢
  cases op with
  | Open a f n e =>
    simp only [step, Option.some.injEq] at hstep
    subst hstep
    intro hcap
    rw [(open_frame c a f n e).1] at hcap
    have ho := hinv hcap
    simp [OpenAudioCaptureStream, ho]
  | Start e =>
    simp only [step, Option.some.injEq] at hstep
    subst hstep
    unfold StartStream IsStreamOpen IsCapturing
    split_ifs with h1 h2
    · exact hinv
    · exact hinv
    · intro _
      simp only [Bool.or_eq_true, Bool.not_eq_eq_eq_not, Bool.not_true, not_or] at h1
      simpa using h1.1.1
  | Stop st =>
    simp only [step, Option.some.injEq] at hstep
    subst hstep
    unfold StopStream IsStreamOpen IsCapturing
    split_ifs with h1
    · exact hinv
    · intro _
      simp only [Bool.or_eq_true, Bool.not_eq_eq_eq_not, Bool.not_true, not_or] at h1
      simpa using h1.1
  | Close st =>
    simp only [step, Option.some.injEq] at hstep
    subst hstep
    simp only [closesWithFailedStop] at hop
    intro hcap
    exfalso
    revert hcap hop hinv
    rcases c with ⟨u, N, SR, CB, BS, OC, o, cap⟩
    cases o <;> cases cap <;> simp_all [CloseStream, StopStream, IsStreamOpen, IsCapturing]
  | Abort st st2 =>
    simp only [step, Option.some.injEq] at hstep
    subst hstep
    simp only [closesWithFailedStop] at hop
    intro hcap
    exfalso
    revert hcap hop hinv
    rcases c with ⟨u, N, SR, CB, BS, OC, o, cap⟩
    cases o <;> cases cap <;>
      simp_all [AbortStream, CloseStream, StopStream, IsStreamOpen, IsCapturing]
    intro _
    split_ifs <;> rfl
  | Render n e =>
    simp only [step, Option.map_eq_some'] at hstep
    obtain ⟨r, hr, hself⟩ := hstep
    subst hself
    obtain ⟨h1, h2⟩ := OnCaptureCallback_flags c n e r hr
    rw [h1, h2]
    exact hinv

end AudioCaptureIOS
